import Mathlib

/-!
Verification development for a small Python-like interpreter written in C++
(sources: `lexer.h`/`lexer.cpp`, `parser.h`/`parser.cpp`, `ast.h`,
`interpreter.h`/`interpreter.cpp`, `main.cpp`).

The development shallowly embeds the three pipeline stages:
* the indentation-aware tokenizer (`Lexer::tokenize`),
* the recursive-descent parser (`Parser::parseProgram`),
* the tree-walking evaluator (`Interpreter`),
* and the driver (`main` / `readFile`), including its stderr/stdout behaviour.

C++ machine integers are modelled as `Int` (the spec leaves overflow of the
arithmetic operators unspecified); the one place where the 32-bit range is
observable at the public interface (`std::stoi` in `Parser::parseFactor`) is
modelled explicitly with the `INT_MAX` bound.  Exceptions are modelled as
`Except` / explicit outcome values.  The iterative loops of the C++ sources are
modelled as fuel-indexed recursion; fuel exhaustion is a distinguished outcome
that corresponds to no C++ behaviour (the C++ program would simply still be
running).
-/

/-! ## Tokens (lexer.h) -/

/-- Token kinds, exactly the `TokenType` enumeration of `lexer.h`, in
declaration order. -/
inductive TokenType where
  | NUM | ID | TRUE | FALSE
  | PLUS | MINUS | MULTIPLY | DIVIDE
  | LESS | LESS_EQUAL | GREATER | GREATER_EQUAL | EQUAL | NOT_EQUAL
  | AND | OR | NOT
  | IF | ELIF | ELSE | WHILE | BREAK | CONTINUE | LIST | PRINT | APPEND
  | ASSIGN | LPAREN | RPAREN | LBRACKET | RBRACKET | COLON | DOT | COMMA
  | NEWLINE | INDENT | DEDENT | ENDMARKER
  | ERROR
deriving DecidableEq

/-- `static_cast<int>(TokenType)`: the underlying value of the C++ enum
(used only by the debug printout of `main.cpp`). -/
def TokenType.toCppInt : TokenType → Nat
  | .NUM => 0 | .ID => 1 | .TRUE => 2 | .FALSE => 3
  | .PLUS => 4 | .MINUS => 5 | .MULTIPLY => 6 | .DIVIDE => 7
  | .LESS => 8 | .LESS_EQUAL => 9 | .GREATER => 10 | .GREATER_EQUAL => 11
  | .EQUAL => 12 | .NOT_EQUAL => 13
  | .AND => 14 | .OR => 15 | .NOT => 16
  | .IF => 17 | .ELIF => 18 | .ELSE => 19 | .WHILE => 20 | .BREAK => 21
  | .CONTINUE => 22 | .LIST => 23 | .PRINT => 24 | .APPEND => 25
  | .ASSIGN => 26 | .LPAREN => 27 | .RPAREN => 28 | .LBRACKET => 29
  | .RBRACKET => 30 | .COLON => 31 | .DOT => 32 | .COMMA => 33
  | .NEWLINE => 34 | .INDENT => 35 | .DEDENT => 36 | .ENDMARKER => 37
  | .ERROR => 38

/-- A token: kind, textual value, and 1-based line/column of its first
character (struct `Token` in `lexer.h`). -/
structure Token where
  type : TokenType
  value : String
  line : Nat
  col : Nat
deriving DecidableEq

/-! ## Lexer state (private members of class `Lexer`)

The C++ lexer walks `source` with an index `pos`; we keep the remaining
suffix of the source as a `List Char` instead, so `currentChar()` is the head
(`'\x00'` at the end, as in the C++ code) and `advance()` drops the head. -/

structure LexState where
  /-- remaining part of `source` (the suffix from `pos`) -/
  src : List Char
  line : Nat
  col : Nat
  atLineStart : Bool
  /-- `indentStack`, top element first (bottom of the C++ stack is the last
  list element) -/
  indentStack : List Nat
  /-- tokens emitted so far, in order -/
  tokens : List Token

/-- `Lexer::currentChar()`: head of the remaining source, `'\x00'` at EOF. -/
def currentChar (st : LexState) : Char := st.src.headD '\x00'

/-- `Lexer::advance()`: consume one character, updating line/column and the
`atLineStart` flag exactly as in `lexer.cpp` lines 48-62. -/
def advance (st : LexState) : LexState :=
  match st.src with
  | [] => st
  | c :: rest =>
    if c = '\n' then
      { st with src := rest, line := st.line + 1, col := 1, atLineStart := true }
    else
      { st with src := rest, col := st.col + 1,
                atLineStart := if c ≠ '\t' ∧ c ≠ ' ' then false else st.atLineStart }

/-- `Lexer::isDigit`. -/
def isDigitCh (c : Char) : Prop := '0' ≤ c ∧ c ≤ '9'

instance (c : Char) : Decidable (isDigitCh c) := by unfold isDigitCh; infer_instance

/-- `Lexer::isAlpha`. -/
def isAlphaCh (c : Char) : Prop := ('a' ≤ c ∧ c ≤ 'z') ∨ ('A' ≤ c ∧ c ≤ 'Z')

instance (c : Char) : Decidable (isAlphaCh c) := by unfold isAlphaCh; infer_instance

/-- `Lexer::isAlphaNum`. -/
def isAlphaNumCh (c : Char) : Prop := isAlphaCh c ∨ isDigitCh c

instance (c : Char) : Decidable (isAlphaNumCh c) := by unfold isAlphaNumCh; infer_instance

/-- The keyword table of `lexer.cpp` (the `keywords` unordered_map), as an
association list. -/
def keywords : List (String × TokenType) :=
  [("if", .IF), ("elif", .ELIF), ("else", .ELSE), ("while", .WHILE),
   ("break", .BREAK), ("continue", .CONTINUE), ("list", .LIST),
   ("print", .PRINT), ("append", .APPEND), ("and", .AND), ("or", .OR),
   ("not", .NOT), ("True", .TRUE), ("False", .FALSE)]

/-- `keywords.find(s)`. -/
def keywordLookup (s : String) : Option TokenType := keywords.lookup s

/-! Character-consuming loops of the lexer.  Each loop of `lexer.cpp` consumes
a run of characters none of which is `'\n'`, so `advance()` only increments
`column` for them (and clears `atLineStart` exactly when the character is
neither tab nor space).  We therefore run the loops on the raw character list
and rebuild the state afterwards. -/

/-- The counting loop of `Lexer::handleIndentation` (lexer.cpp lines 202-211):
consume leading tabs/spaces, tracking the count, the first indentation
character (`'\x00'` = none yet) and the mixed-indentation flag.  Returns the
remaining source and the three accumulators. -/
def countIndent : List Char → Nat → Char → Bool → List Char × Nat × Char × Bool
  | c :: rest, n, firstC, mixed =>
    if c = '\t' ∨ c = ' ' then
      countIndent rest (n + 1) (if firstC = '\x00' then c else firstC)
        (mixed || (firstC != '\x00' && firstC != c))
    else (c :: rest, n, firstC, mixed)
  | [], n, firstC, mixed => ([], n, firstC, mixed)

/-- The loop of `Lexer::skipWhitespace`: consume spaces, returning the rest
and the number consumed. -/
def takeSpaces : List Char → List Char × Nat
  | ' ' :: rest => let r := takeSpaces rest; (r.1, r.2 + 1)
  | src => (src, 0)

/-- The digit loop of `Lexer::makeNumber`: split off a maximal run of
digits. -/
def takeDigits : List Char → List Char × List Char
  | c :: rest =>
    if isDigitCh c then
      let r := takeDigits rest
      (c :: r.1, r.2)
    else ([], c :: rest)
  | [] => ([], [])

/-- The alphanumeric loop of `Lexer::makeIdentifier`: split off a maximal run
of alphanumeric characters. -/
def takeAlphaNum : List Char → List Char × List Char
  | c :: rest =>
    if isAlphaNumCh c then
      let r := takeAlphaNum rest
      (c :: r.1, r.2)
    else ([], c :: rest)
  | [] => ([], [])

/-- `Lexer::skipWhitespace` as a state transformer (spaces are not `'\n'` and
do not clear `atLineStart`, so only `src` and `col` change). -/
def skipWhitespace (st : LexState) : LexState :=
  let r := takeSpaces st.src
  { st with src := r.1, col := st.col + r.2 }

/-- Consume `n` characters that are known to be neither `'\n'`, tab nor
space (operator characters), mirroring `n` calls of `advance()`: the column
advances and `atLineStart` is cleared. -/
def consumeOp (st : LexState) (n : Nat) : LexState :=
  { st with src := st.src.drop n, col := st.col + n, atLineStart := false }

/-- `Lexer::makeNumber` (lexer.cpp lines 82-119): returns the token and the
state after it.  Consumed characters are digits, so the column advances by
their count and `atLineStart` is cleared. -/
def makeNumber (st : LexState) : Token × LexState :=
  match st.src with
  | '0' :: rest =>
    let st1 : LexState :=
      { st with src := rest, col := st.col + 1, atLineStart := false }
    if isDigitCh (rest.headD '\x00') then
      (⟨.ERROR, "Numbers cannot start with 0 unless they are just 0", st.line, st.col⟩, st1)
    else
      (⟨.NUM, "0", st.line, st.col⟩, st1)
  | c :: rest =>
    if '1' ≤ c ∧ c ≤ '9' then
      let r := takeDigits rest
      (⟨.NUM, String.mk (c :: r.1), st.line, st.col⟩,
       { st with src := r.2, col := st.col + 1 + r.1.length, atLineStart := false })
    else
      (⟨.ERROR, "Invalid number format", st.line, st.col⟩, st)
  | [] => (⟨.ERROR, "Invalid number format", st.line, st.col⟩, st)

/-- `Lexer::makeIdentifier` (lexer.cpp lines 121-147). -/
def makeIdentifier (st : LexState) : Token × LexState :=
  match st.src with
  | c :: rest =>
    if isAlphaCh c then
      let r := takeAlphaNum rest
      let idStr := String.mk (c :: r.1)
      let tt := (keywordLookup idStr).getD .ID
      (⟨tt, idStr, st.line, st.col⟩,
       { st with src := r.2, col := st.col + 1 + r.1.length, atLineStart := false })
    else (⟨.ERROR, "Invalid identifier", st.line, st.col⟩, st)
  | [] => (⟨.ERROR, "Invalid identifier", st.line, st.col⟩, st)

/-- `Lexer::makeTwoCharOperator` (lexer.cpp lines 149-192). -/
def makeTwoCharOperator (st : LexState) : Token × LexState :=
  let first := currentChar st
  let second := (st.src.drop 1).headD '\x00'
  if first = '=' ∧ second = '=' then (⟨.EQUAL, "==", st.line, st.col⟩, consumeOp st 2)
  else if first = '!' ∧ second = '=' then (⟨.NOT_EQUAL, "!=", st.line, st.col⟩, consumeOp st 2)
  else if first = '<' ∧ second = '=' then (⟨.LESS_EQUAL, "<=", st.line, st.col⟩, consumeOp st 2)
  else if first = '>' ∧ second = '=' then (⟨.GREATER_EQUAL, ">=", st.line, st.col⟩, consumeOp st 2)
  else if first = '/' ∧ second = '/' then (⟨.DIVIDE, "//", st.line, st.col⟩, consumeOp st 2)
  else
    let st1 := consumeOp st 1
    if first = '=' then (⟨.ASSIGN, "=", st.line, st.col⟩, st1)
    else if first = '<' then (⟨.LESS, "<", st.line, st.col⟩, st1)
    else if first = '>' then (⟨.GREATER, ">", st.line, st.col⟩, st1)
    else (⟨.ERROR, "Unknown operator", st.line, st.col⟩, st1)

/-- The pop loop of `Lexer::handleIndentation` (lexer.cpp lines 252-255) and
of `Lexer::addDedentTokens`: pop stack entries greater than `level`, emitting
one DEDENT token (at the given position) per pop.  Returns the remaining
stack and the emitted tokens in order. -/
def popDedents : List Nat → Nat → Nat → Nat → List Nat × List Token
  | t :: rest, level, ln, cl =>
    if t > level then
      let r := popDedents rest level ln cl
      (r.1, ⟨.DEDENT, "", ln, cl⟩ :: r.2)
    else (t :: rest, [])
  | [], _, _, _ => ([], [])

/-- The stack comparison of `Lexer::handleIndentation` (lexer.cpp lines
238-264), applied once the indentation `level` of the line is known. -/
def applyIndentLevel (st : LexState) (level : Nat) : LexState :=
  match st.indentStack with
  | [] =>
    { st with tokens := st.tokens ++ [⟨.ERROR, "Internal error: empty indent stack", st.line, st.col⟩] }
  | top :: _ =>
    if level > top then
      { st with indentStack := level :: st.indentStack,
                tokens := st.tokens ++ [⟨.INDENT, "", st.line, st.col⟩],
                atLineStart := false }
    else if level < top then
      let p := popDedents st.indentStack level st.line st.col
      match p.1 with
      | [] =>
        { st with indentStack := p.1,
                  tokens := st.tokens ++ p.2 ++
                    [⟨.ERROR, "IndentationError: unindent does not match any outer indentation level", st.line, st.col⟩] }
      | t :: _ =>
        if t ≠ level then
          { st with indentStack := p.1,
                    tokens := st.tokens ++ p.2 ++
                      [⟨.ERROR, "IndentationError: unindent does not match any outer indentation level", st.line, st.col⟩] }
        else
          { st with indentStack := p.1, tokens := st.tokens ++ p.2, atLineStart := false }
    else { st with atLineStart := false }

/-- `Lexer::handleIndentation` (lexer.cpp lines 194-265).  Consumes the
leading whitespace of the line; a blank line (next character `'\n'` or EOF)
is ignored; mixed tab/space or odd space counts produce an ERROR token; the
resulting level is compared against the indentation stack. -/
def handleIndentation (st : LexState) : LexState :=
  if st.atLineStart = false then st
  else
    let r := countIndent st.src 0 '\x00' false
    let st1 : LexState := { st with src := r.1, col := st.col + r.2.1 }
    let firstC := r.2.2.1
    let mixed := r.2.2.2
    if currentChar st1 = '\n' ∨ currentChar st1 = '\x00' then st1
    else if mixed then
      { st1 with tokens := st1.tokens ++
          [⟨.ERROR, "IndentationError: inconsistent use of tabs and spaces in indentation", st1.line, st1.col⟩] }
    else if firstC = '\t' ∨ r.2.1 = 0 then
      applyIndentLevel st1 r.2.1
    else if r.2.1 % 2 ≠ 0 then
      { st1 with tokens := st1.tokens ++
          [⟨.ERROR, "IndentationError: unindent does not match any outer indentation level", st1.line, st1.col⟩] }
    else
      applyIndentLevel st1 (r.2.1 / 2)

/-- `Lexer::addDedentTokens` (lexer.cpp lines 267-273): at end of input, pop
every stack level above `0`, emitting one DEDENT per pop. -/
def addDedentTokens (st : LexState) : LexState :=
  let p := popDedents st.indentStack 0 st.line st.col
  { st with indentStack := p.1, tokens := st.tokens ++ p.2 }

/-- End of `Lexer::tokenize`: the final DEDENT flush followed by the
ENDMARKER token (lexer.cpp lines 360-362). -/
def finishTokens (st : LexState) : List Token :=
  let st1 := addDedentTokens st
  st1.tokens ++ [⟨.ENDMARKER, "EOF", st1.line, st1.col⟩]

/-- Result of one iteration of the `tokenize` loop: `next` continues with the
new state, `finish` leaves the loop (EOF reached), `done` returns the token
list immediately (an ERROR token was produced). -/
inductive IterResult where
  | next (st : LexState)
  | finish (st : LexState)
  | done (ts : List Token)

/-- The body of the `tokenize` loop after the indentation handling (lexer.cpp
lines 292-357): dispatch on the current character. -/
def lexBody (st : LexState) : IterResult :=
  let c := currentChar st
  if c = '\x00' then .finish st
  else if c = '\n' then
    .next (advance { st with tokens := st.tokens ++ [⟨.NEWLINE, "\\n", st.line, st.col⟩] })
  else if c = ' ' then .next (skipWhitespace st)
  else if isDigitCh c then
    let r := makeNumber st
    let st1 := { r.2 with tokens := r.2.tokens ++ [r.1] }
    if r.1.type = .ERROR then .done st1.tokens else .next st1
  else if isAlphaCh c then
    let r := makeIdentifier st
    let st1 := { r.2 with tokens := r.2.tokens ++ [r.1] }
    if r.1.type = .ERROR then .done st1.tokens else .next st1
  else if c = '=' ∨ c = '!' ∨ c = '<' ∨ c = '>' ∨ c = '/' then
    let r := makeTwoCharOperator st
    let st1 := { r.2 with tokens := r.2.tokens ++ [r.1] }
    if r.1.type = .ERROR then .done st1.tokens else .next st1
  else
    let st1 := advance st
    if c = '+' then .next { st1 with tokens := st1.tokens ++ [⟨.PLUS, "+", st.line, st.col⟩] }
    else if c = '-' then .next { st1 with tokens := st1.tokens ++ [⟨.MINUS, "-", st.line, st.col⟩] }
    else if c = '*' then .next { st1 with tokens := st1.tokens ++ [⟨.MULTIPLY, "*", st.line, st.col⟩] }
    else if c = '(' then .next { st1 with tokens := st1.tokens ++ [⟨.LPAREN, "(", st.line, st.col⟩] }
    else if c = ')' then .next { st1 with tokens := st1.tokens ++ [⟨.RPAREN, ")", st.line, st.col⟩] }
    else if c = '[' then .next { st1 with tokens := st1.tokens ++ [⟨.LBRACKET, "[", st.line, st.col⟩] }
    else if c = ']' then .next { st1 with tokens := st1.tokens ++ [⟨.RBRACKET, "]", st.line, st.col⟩] }
    else if c = ':' then .next { st1 with tokens := st1.tokens ++ [⟨.COLON, ":", st.line, st.col⟩] }
    else if c = '.' then .next { st1 with tokens := st1.tokens ++ [⟨.DOT, ".", st.line, st.col⟩] }
    else if c = ',' then .next { st1 with tokens := st1.tokens ++ [⟨.COMMA, ",", st.line, st.col⟩] }
    else
      let st2 : LexState :=
        { st1 with tokens := st1.tokens ++ [⟨.ERROR, "Unexpected character", st.line, st.col⟩] }
      .done st2.tokens

/-- `tokens.back().type == ERROR` check of the `tokenize` loop (lexer.cpp
lines 285-287). -/
def lastIsErr (ts : List Token) : Bool :=
  match ts.getLast? with
  | some t => t.type == .ERROR
  | none => false

/-- One iteration of the `tokenize` loop (lexer.cpp lines 278-358): handle
indentation at line start (returning immediately if it produced an ERROR
token), then dispatch on the current character. -/
def lexIter (st0 : LexState) : IterResult :=
  if st0.atLineStart then
    let st := handleIndentation st0
    if lastIsErr st.tokens then .done st.tokens else lexBody st
  else lexBody st0

/-- The `while (currentChar() != '\0')` loop of `Lexer::tokenize`, as a
fuel-indexed recursion.  At fuel 0 the partial token list is returned (this
never happens for the fuel chosen by `tokenize`: every `next` iteration
consumes at least one source character). -/
def tokenizeLoop : Nat → LexState → List Token
  | 0, st => st.tokens
  | fuel + 1, st =>
    if currentChar st = '\x00' then finishTokens st
    else
      match lexIter st with
      | .done ts => ts
      | .finish st' => finishTokens st'
      | .next st' => tokenizeLoop fuel st'

/-- The initial lexer state (`Lexer::Lexer`): position at the start, line 1,
column 1, `atLineStart` true, indentation stack `[0]`, no tokens. -/
def initLexState (source : String) : LexState :=
  { src := source.toList, line := 1, col := 1, atLineStart := true,
    indentStack := [0], tokens := [] }

/-- `Lexer::tokenize` (lexer.cpp lines 275-365). -/
def tokenize (source : String) : List Token :=
  tokenizeLoop (source.length + 1) (initLexState source)

/-- Number of tokens of a given kind. -/
def countType (ts : List Token) (k : TokenType) : Nat :=
  ts.countP (fun t => t.type == k)

/-! ## AST (ast.h)

Expression and statement trees, mirroring the node classes of `ast.h`.
`NumberLiteral::value` is a C++ `int`; it is modelled as `Int` (overflow of
the arithmetic operators is unspecified by the spec; the one observable
32-bit boundary, `std::stoi` in the parser, is modelled separately). -/

/-- `UnaryOperation::Operator`. -/
inductive UnOp where
  | MINUS | NOT
deriving DecidableEq

/-- `BinaryOperation::Operator`. -/
inductive BinOp where
  | ADD | SUBTRACT | MULTIPLY | DIVIDE
  | LESS | LESS_EQUAL | GREATER | GREATER_EQUAL | EQUAL | NOT_EQUAL
  | AND | OR
deriving DecidableEq

/-- Expression nodes: `NumberLiteral`, `BooleanLiteral`, `Identifier`,
`ListAccess`, `UnaryOperation`, `BinaryOperation`. -/
inductive Expr where
  | num (value : Int)
  | boolLit (value : Bool)
  | ident (name : String)
  | listAccess (listName : String) (index : Expr)
  | unary (op : UnOp) (operand : Expr)
  | binop (op : BinOp) (left right : Expr)

/-- Statement nodes: `Assignment`, `ListAssignment`, `ListCreation`,
`ListAppend`, `PrintStatement`, `BreakStatement`, `ContinueStatement`,
`IfStatement` (condition, then-block, elif clauses, optional else-block),
`WhileStatement`, `Block`. -/
inductive Stmt where
  | assign (variableName : String) (value : Expr)
  | listAssign (listName : String) (index : Expr) (value : Expr)
  | listCreate (variableName : String)
  | listAppend (listName : String) (value : Expr)
  | printStmt (expression : Expr)
  | breakStmt
  | continueStmt
  | ifStmt (condition : Expr) (thenBlock : Stmt)
      (elifClauses : List (Expr × Stmt)) (elseBlock : Option Stmt)
  | whileStmt (condition : Expr) (body : Stmt)
  | block (statements : List Stmt)

/-! ## Parser (parser.h / parser.cpp)

The parser walks the token vector with an index `currentPos`; parse
functions take the (fixed) token list and the current position and return
the parsed node together with the new position.  `ParseError` and the
`std::out_of_range` thrown by `std::stoi` are the two failure modes of the
C++ parser; fuel exhaustion is an artifact of the embedding (the fuel chosen
by `parseProgram` is ample for the recursion depth of any token list). -/

/-- Failure modes of the parser. -/
inductive PFail where
  /-- `ParseError(msg)`; its `what()` is `"Error: " ++ msg`. -/
  | err (msg : String)
  /-- `std::out_of_range` escaping from `std::stoi`. -/
  | oor
  /-- fuel exhaustion (artifact of the embedding, no C++ counterpart) -/
  | fuelOut
deriving DecidableEq

/-- The ENDMARKER token the `Parser` constructor appends when the stream does
not already end with one. -/
def dummyEndmarker : Token := ⟨.ENDMARKER, "EOF", 0, 0⟩

/-- `Parser::currentToken` / `Parser::peekToken`: the token at `pos`, or the
last token when `pos` is past the end (the list is never empty when this is
used: the constructor guarantees a trailing ENDMARKER). -/
def tokAt (ts : List Token) (pos : Nat) : Token :=
  ts.getD pos (ts.getLastD dummyEndmarker)

/-- `Parser::isAtEnd`. -/
def isAtEndP (ts : List Token) (pos : Nat) : Bool :=
  decide (ts.length ≤ pos) || (tokAt ts pos).type == .ENDMARKER

/-- `Parser::check`. -/
def checkTok (ts : List Token) (pos : Nat) (ty : TokenType) : Bool :=
  !isAtEndP ts pos && (tokAt ts pos).type == ty

/-- `Parser::advance`. -/
def advanceP (ts : List Token) (pos : Nat) : Nat :=
  if isAtEndP ts pos then pos else pos + 1

/-- `Parser::match`: returns whether the token matched and the new
position. -/
def matchTok (ts : List Token) (pos : Nat) (ty : TokenType) : Bool × Nat :=
  if checkTok ts pos ty then (true, advanceP ts pos) else (false, pos)

/-- `Parser::consume`. -/
def consumeTok (ts : List Token) (pos : Nat) (ty : TokenType) (msg : String) :
    Except PFail (Token × Nat) :=
  if checkTok ts pos ty then .ok (tokAt ts pos, advanceP ts pos)
  else .error (.err msg)

/-- Numeric value of a digit string. -/
def digitsToNat (cs : List Char) : Nat :=
  cs.foldl (fun acc c => acc * 10 + (c.toNat - '0'.toNat)) 0

/-- Models `std::stoi` applied to the value of a NUM token (always a plain
digit string `0 | [1-9][0-9]*`): the represented integer, except that, as
with `std::stoi` into a 32-bit `int`, a value above `INT_MAX = 2147483647`
throws `std::out_of_range`. -/
def stoiNum (s : String) : Except PFail Int :=
  let n := digitsToNat s.toList
  if n > 2147483647 then .error .oor else .ok (n : Int)

mutual

/-- `Parser::parseExpr`: `<join> (or <join>)*`, left-associated. -/
def parseExpr : Nat → List Token → Nat → Except PFail (Expr × Nat)
  | 0, _, _ => .error .fuelOut
  | fuel + 1, ts, pos => do
    let (e, pos1) ← parseJoin fuel ts pos
    parseOrLoop fuel ts e pos1
termination_by structural fuel _ _ => fuel

/-- The `while (match(OR))` loop of `Parser::parseExpr`. -/
def parseOrLoop : Nat → List Token → Expr → Nat → Except PFail (Expr × Nat)
  | 0, _, _, _ => .error .fuelOut
  | fuel + 1, ts, acc, pos =>
    let m := matchTok ts pos .OR
    if m.1 then do
      let (r, pos1) ← parseJoin fuel ts m.2
      parseOrLoop fuel ts (.binop .OR acc r) pos1
    else .ok (acc, pos)
termination_by structural fuel _ _ _ => fuel

/-- `Parser::parseJoin`: `<equality> (and <equality>)*`, left-associated. -/
def parseJoin : Nat → List Token → Nat → Except PFail (Expr × Nat)
  | 0, _, _ => .error .fuelOut
  | fuel + 1, ts, pos => do
    let (e, pos1) ← parseEquality fuel ts pos
    parseAndLoop fuel ts e pos1
termination_by structural fuel _ _ => fuel

/-- The `while (match(AND))` loop of `Parser::parseJoin`. -/
def parseAndLoop : Nat → List Token → Expr → Nat → Except PFail (Expr × Nat)
  | 0, _, _, _ => .error .fuelOut
  | fuel + 1, ts, acc, pos =>
    let m := matchTok ts pos .AND
    if m.1 then do
      let (r, pos1) ← parseEquality fuel ts m.2
      parseAndLoop fuel ts (.binop .AND acc r) pos1
    else .ok (acc, pos)
termination_by structural fuel _ _ _ => fuel

/-- `Parser::parseEquality`: `<rel> ((== | !=) <rel>)*`, left-associated. -/
def parseEquality : Nat → List Token → Nat → Except PFail (Expr × Nat)
  | 0, _, _ => .error .fuelOut
  | fuel + 1, ts, pos => do
    let (e, pos1) ← parseRel fuel ts pos
    parseEqLoop fuel ts e pos1
termination_by structural fuel _ _ => fuel

/-- The equality loop of `Parser::parseEquality`. -/
def parseEqLoop : Nat → List Token → Expr → Nat → Except PFail (Expr × Nat)
  | 0, _, _, _ => .error .fuelOut
  | fuel + 1, ts, acc, pos =>
    let me := matchTok ts pos .EQUAL
    if me.1 then do
      let (r, pos1) ← parseRel fuel ts me.2
      parseEqLoop fuel ts (.binop .EQUAL acc r) pos1
    else
      let mn := matchTok ts pos .NOT_EQUAL
      if mn.1 then do
        let (r, pos1) ← parseRel fuel ts mn.2
        parseEqLoop fuel ts (.binop .NOT_EQUAL acc r) pos1
      else .ok (acc, pos)
termination_by structural fuel _ _ _ => fuel

/-- `Parser::parseRel`: at most one relational operator (non-chaining). -/
def parseRel : Nat → List Token → Nat → Except PFail (Expr × Nat)
  | 0, _, _ => .error .fuelOut
  | fuel + 1, ts, pos => do
    let (e, pos1) ← parseNumExpr fuel ts pos
    let ml := matchTok ts pos1 .LESS
    if ml.1 then do
      let (r, pos2) ← parseNumExpr fuel ts ml.2
      .ok (.binop .LESS e r, pos2)
    else
      let mle := matchTok ts pos1 .LESS_EQUAL
      if mle.1 then do
        let (r, pos2) ← parseNumExpr fuel ts mle.2
        .ok (.binop .LESS_EQUAL e r, pos2)
      else
        let mg := matchTok ts pos1 .GREATER
        if mg.1 then do
          let (r, pos2) ← parseNumExpr fuel ts mg.2
          .ok (.binop .GREATER e r, pos2)
        else
          let mge := matchTok ts pos1 .GREATER_EQUAL
          if mge.1 then do
            let (r, pos2) ← parseNumExpr fuel ts mge.2
            .ok (.binop .GREATER_EQUAL e r, pos2)
          else .ok (e, pos1)
termination_by structural fuel _ _ => fuel

/-- `Parser::parseNumExpr`: `<term> ((+ | -) <term>)*`, left-associated. -/
def parseNumExpr : Nat → List Token → Nat → Except PFail (Expr × Nat)
  | 0, _, _ => .error .fuelOut
  | fuel + 1, ts, pos => do
    let (e, pos1) ← parseTerm fuel ts pos
    parseAddLoop fuel ts e pos1
termination_by structural fuel _ _ => fuel

/-- The additive loop of `Parser::parseNumExpr`. -/
def parseAddLoop : Nat → List Token → Expr → Nat → Except PFail (Expr × Nat)
  | 0, _, _, _ => .error .fuelOut
  | fuel + 1, ts, acc, pos =>
    let mp := matchTok ts pos .PLUS
    if mp.1 then do
      let (r, pos1) ← parseTerm fuel ts mp.2
      parseAddLoop fuel ts (.binop .ADD acc r) pos1
    else
      let mm := matchTok ts pos .MINUS
      if mm.1 then do
        let (r, pos1) ← parseTerm fuel ts mm.2
        parseAddLoop fuel ts (.binop .SUBTRACT acc r) pos1
      else .ok (acc, pos)
termination_by structural fuel _ _ _ => fuel

/-- `Parser::parseTerm`: `<unary> ((* | //) <unary>)*`, left-associated. -/
def parseTerm : Nat → List Token → Nat → Except PFail (Expr × Nat)
  | 0, _, _ => .error .fuelOut
  | fuel + 1, ts, pos => do
    let (e, pos1) ← parseUnary fuel ts pos
    parseMulLoop fuel ts e pos1
termination_by structural fuel _ _ => fuel

/-- The multiplicative loop of `Parser::parseTerm`. -/
def parseMulLoop : Nat → List Token → Expr → Nat → Except PFail (Expr × Nat)
  | 0, _, _, _ => .error .fuelOut
  | fuel + 1, ts, acc, pos =>
    let mm := matchTok ts pos .MULTIPLY
    if mm.1 then do
      let (r, pos1) ← parseUnary fuel ts mm.2
      parseMulLoop fuel ts (.binop .MULTIPLY acc r) pos1
    else
      let md := matchTok ts pos .DIVIDE
      if md.1 then do
        let (r, pos1) ← parseUnary fuel ts md.2
        parseMulLoop fuel ts (.binop .DIVIDE acc r) pos1
      else .ok (acc, pos)
termination_by structural fuel _ _ _ => fuel

/-- `Parser::parseUnary`: `(not | -) <unary> | <factor>`. -/
def parseUnary : Nat → List Token → Nat → Except PFail (Expr × Nat)
  | 0, _, _ => .error .fuelOut
  | fuel + 1, ts, pos =>
    let mn := matchTok ts pos .NOT
    if mn.1 then do
      let (e, pos1) ← parseUnary fuel ts mn.2
      .ok (.unary .NOT e, pos1)
    else
      let mm := matchTok ts pos .MINUS
      if mm.1 then do
        let (e, pos1) ← parseUnary fuel ts mm.2
        .ok (.unary .MINUS e, pos1)
      else parseFactor fuel ts pos
termination_by structural fuel _ _ => fuel

/-- `Parser::parseFactor`: parenthesized expression, number (via `std::stoi`),
boolean literal, or location. -/
def parseFactor : Nat → List Token → Nat → Except PFail (Expr × Nat)
  | 0, _, _ => .error .fuelOut
  | fuel + 1, ts, pos =>
    let mp := matchTok ts pos .LPAREN
    if mp.1 then do
      let (e, pos1) ← parseExpr fuel ts mp.2
      let (_, pos2) ← consumeTok ts pos1 .RPAREN "Expected ')' after expression"
      .ok (e, pos2)
    else if checkTok ts pos .NUM then do
      let v ← stoiNum (tokAt ts pos).value
      .ok (.num v, advanceP ts pos)
    else
      let mt := matchTok ts pos .TRUE
      if mt.1 then .ok (.boolLit true, mt.2)
      else
        let mf := matchTok ts pos .FALSE
        if mf.1 then .ok (.boolLit false, mf.2)
        else if checkTok ts pos .ID then parseLoc fuel ts pos
        else .error (.err "Expected expression")
termination_by structural fuel _ _ => fuel

/-- `Parser::parseLoc`: `id` or `id [ <expr> ]`. -/
def parseLoc : Nat → List Token → Nat → Except PFail (Expr × Nat)
  | 0, _, _ => .error .fuelOut
  | fuel + 1, ts, pos => do
    let (nameTok, pos1) ← consumeTok ts pos .ID "Expected identifier"
    let mb := matchTok ts pos1 .LBRACKET
    if mb.1 then do
      let (idx, pos2) ← parseExpr fuel ts mb.2
      let (_, pos3) ← consumeTok ts pos2 .RBRACKET "Expected ']'"
      .ok (.listAccess nameTok.value idx, pos3)
    else .ok (.ident nameTok.value, pos1)
termination_by structural fuel _ _ => fuel

end

/-- The `while (check(NEWLINE)) advance();` loop of `Parser::parseStmts`. -/
def skipNewlines : Nat → List Token → Nat → Nat
  | 0, _, pos => pos
  | fuel + 1, ts, pos =>
    if checkTok ts pos .NEWLINE then skipNewlines fuel ts (advanceP ts pos) else pos

/-- `Parser::parseBreakStatement`. -/
def parseBreakStatement (ts : List Token) (pos : Nat) : Except PFail (Stmt × Nat) := do
  let (_, p1) ← consumeTok ts pos .BREAK "Expected 'break'"
  let (_, p2) ← consumeTok ts p1 .NEWLINE "Expected newline"
  .ok (.breakStmt, p2)

/-- `Parser::parseContinueStatement`. -/
def parseContinueStatement (ts : List Token) (pos : Nat) : Except PFail (Stmt × Nat) := do
  let (_, p1) ← consumeTok ts pos .CONTINUE "Expected 'continue'"
  let (_, p2) ← consumeTok ts p1 .NEWLINE "Expected newline"
  .ok (.continueStmt, p2)

/-- `Parser::parseListCreation`: `id = list ( ) NEWLINE`. -/
def parseListCreation (ts : List Token) (pos : Nat) : Except PFail (Stmt × Nat) := do
  let (nameTok, p1) ← consumeTok ts pos .ID "Expected identifier"
  let (_, p2) ← consumeTok ts p1 .ASSIGN "Expected '='"
  let (_, p3) ← consumeTok ts p2 .LIST "Expected 'list'"
  let (_, p4) ← consumeTok ts p3 .LPAREN "Expected '('"
  let (_, p5) ← consumeTok ts p4 .RPAREN "Expected ')'"
  let (_, p6) ← consumeTok ts p5 .NEWLINE "Expected newline"
  .ok (.listCreate nameTok.value, p6)

/-- `Parser::parsePrintStatement`. -/
def parsePrintStatement (fuel : Nat) (ts : List Token) (pos : Nat) :
    Except PFail (Stmt × Nat) := do
  let (_, p1) ← consumeTok ts pos .PRINT "Expected 'print'"
  let (_, p2) ← consumeTok ts p1 .LPAREN "Expected '('"
  let (e, p3) ← parseExpr fuel ts p2
  let (_, p4) ← consumeTok ts p3 .RPAREN "Expected ')'"
  let (_, p5) ← consumeTok ts p4 .NEWLINE "Expected newline"
  .ok (.printStmt e, p5)

/-- `Parser::parseListAppend`: `id . append ( <expr> ) NEWLINE`. -/
def parseListAppend (fuel : Nat) (ts : List Token) (pos : Nat) :
    Except PFail (Stmt × Nat) := do
  let (nameTok, p1) ← consumeTok ts pos .ID "Expected identifier"
  let (_, p2) ← consumeTok ts p1 .DOT "Expected '.'"
  let (_, p3) ← consumeTok ts p2 .APPEND "Expected 'append'"
  let (_, p4) ← consumeTok ts p3 .LPAREN "Expected '('"
  let (e, p5) ← parseExpr fuel ts p4
  let (_, p6) ← consumeTok ts p5 .RPAREN "Expected ')'"
  let (_, p7) ← consumeTok ts p6 .NEWLINE "Expected newline"
  .ok (.listAppend nameTok.value e, p7)

/-- `Parser::parseAssignment`: plain assignment or indexed list assignment. -/
def parseAssignment (fuel : Nat) (ts : List Token) (pos : Nat) :
    Except PFail (Stmt × Nat) :=
  if checkTok ts pos .ID then
    let varName := (tokAt ts pos).value
    let p1 := advanceP ts pos
    if checkTok ts p1 .LBRACKET then do
      let p2 := advanceP ts p1
      let (index, p3) ← parseExpr fuel ts p2
      let (_, p4) ← consumeTok ts p3 .RBRACKET "Expected ']'"
      let (_, p5) ← consumeTok ts p4 .ASSIGN "Expected '='"
      let (value, p6) ← parseExpr fuel ts p5
      let (_, p7) ← consumeTok ts p6 .NEWLINE "Expected newline"
      .ok (.listAssign varName index value, p7)
    else do
      let (_, p2) ← consumeTok ts p1 .ASSIGN "Expected '='"
      let (value, p3) ← parseExpr fuel ts p2
      let (_, p4) ← consumeTok ts p3 .NEWLINE "Expected newline"
      .ok (.assign varName value, p4)
  else .error (.err "Expected identifier in assignment")

/-- `Parser::parseSimpleStmt`: dispatch on the first token, with the 2- and
3-token look-ahead for the identifier-led forms. -/
def parseSimpleStmt (fuel : Nat) (ts : List Token) (pos : Nat) :
    Except PFail (Stmt × Nat) :=
  if checkTok ts pos .BREAK then parseBreakStatement ts pos
  else if checkTok ts pos .CONTINUE then parseContinueStatement ts pos
  else if checkTok ts pos .PRINT then parsePrintStatement fuel ts pos
  else if checkTok ts pos .ID then
    if pos + 1 < ts.length then
      let second := (tokAt ts (pos + 1)).type
      if second == .ASSIGN then
        if pos + 2 < ts.length then
          if (tokAt ts (pos + 2)).type == .LIST then parseListCreation ts pos
          else parseAssignment fuel ts pos
        else parseAssignment fuel ts pos
      else if second == .LBRACKET then parseAssignment fuel ts pos
      else if second == .DOT then parseListAppend fuel ts pos
      else .error (.err "Unexpected token in simple statement")
    else .error (.err "Unexpected token in simple statement")
  else .error (.err "Unexpected token in simple statement")

mutual

/-- The statement loop of `Parser::parseStmts`, accumulating parsed
statements. -/
def parseStmts : Nat → List Token → Nat → List Stmt → Except PFail (List Stmt × Nat)
  | 0, _, _, _ => .error .fuelOut
  | fuel + 1, ts, pos, acc =>
    if !isAtEndP ts pos && !checkTok ts pos .ENDMARKER && !checkTok ts pos .DEDENT then
      let pos1 := skipNewlines (ts.length + 1) ts pos
      if isAtEndP ts pos1 || checkTok ts pos1 .ENDMARKER || checkTok ts pos1 .DEDENT then
        .ok (acc, pos1)
      else do
        let (stmt, pos2) ← parseStmt fuel ts pos1
        parseStmts fuel ts pos2 (acc ++ [stmt])
    else .ok (acc, pos)
termination_by structural fuel _ _ _ => fuel

/-- `Parser::parseStmt`: compound (`if` / `while`) or simple statement. -/
def parseStmt : Nat → List Token → Nat → Except PFail (Stmt × Nat)
  | 0, _, _ => .error .fuelOut
  | fuel + 1, ts, pos =>
    if checkTok ts pos .IF || checkTok ts pos .WHILE then parseCompoundStmt fuel ts pos
    else parseSimpleStmt fuel ts pos
termination_by structural fuel _ _ => fuel

/-- `Parser::parseCompoundStmt`. -/
def parseCompoundStmt : Nat → List Token → Nat → Except PFail (Stmt × Nat)
  | 0, _, _ => .error .fuelOut
  | fuel + 1, ts, pos =>
    if checkTok ts pos .IF then parseIfStatement fuel ts pos
    else if checkTok ts pos .WHILE then parseWhileStatement fuel ts pos
    else .error (.err "Expected compound statement")
termination_by structural fuel _ _ => fuel

/-- `Parser::parseIfStatement`. -/
def parseIfStatement : Nat → List Token → Nat → Except PFail (Stmt × Nat)
  | 0, _, _ => .error .fuelOut
  | fuel + 1, ts, pos => do
    let (_, p1) ← consumeTok ts pos .IF "Expected 'if'"
    let (cond, p2) ← parseExpr fuel ts p1
    let (_, p3) ← consumeTok ts p2 .COLON "Expected ':'"
    let (thenB, p4) ← parseBlock fuel ts p3
    let (elifs, p5) ← parseElifLoop fuel ts [] p4
    let me := matchTok ts p5 .ELSE
    if me.1 then do
      let (_, p6) ← consumeTok ts me.2 .COLON "Expected ':'"
      let (elseB, p7) ← parseBlock fuel ts p6
      .ok (.ifStmt cond thenB elifs (some elseB), p7)
    else .ok (.ifStmt cond thenB elifs none, p5)
termination_by structural fuel _ _ => fuel

/-- The `while (check(ELIF))` loop of `Parser::parseIfStatement`. -/
def parseElifLoop : Nat → List Token → List (Expr × Stmt) → Nat →
    Except PFail (List (Expr × Stmt) × Nat)
  | 0, _, _, _ => .error .fuelOut
  | fuel + 1, ts, acc, pos =>
    if checkTok ts pos .ELIF then do
      let p1 := advanceP ts pos
      let (c, p2) ← parseExpr fuel ts p1
      let (_, p3) ← consumeTok ts p2 .COLON "Expected ':'"
      let (b, p4) ← parseBlock fuel ts p3
      parseElifLoop fuel ts (acc ++ [(c, b)]) p4
    else .ok (acc, pos)
termination_by structural fuel _ _ _ => fuel

/-- `Parser::parseWhileStatement`. -/
def parseWhileStatement : Nat → List Token → Nat → Except PFail (Stmt × Nat)
  | 0, _, _ => .error .fuelOut
  | fuel + 1, ts, pos => do
    let (_, p1) ← consumeTok ts pos .WHILE "Expected 'while'"
    let (cond, p2) ← parseExpr fuel ts p1
    let (_, p3) ← consumeTok ts p2 .COLON "Expected ':'"
    let (body, p4) ← parseBlock fuel ts p3
    .ok (.whileStmt cond body, p4)
termination_by structural fuel _ _ => fuel

/-- `Parser::parseBlock`: `NEWLINE INDENT <stmts> DEDENT`. -/
def parseBlock : Nat → List Token → Nat → Except PFail (Stmt × Nat)
  | 0, _, _ => .error .fuelOut
  | fuel + 1, ts, pos => do
    let (_, p1) ← consumeTok ts pos .NEWLINE "Expected newline before block"
    let (_, p2) ← consumeTok ts p1 .INDENT "Expected indentation"
    let (stmts, p3) ← parseStmts fuel ts p2 []
    let (_, p4) ← consumeTok ts p3 .DEDENT "Expected dedent to close block"
    .ok (.block stmts, p4)
termination_by structural fuel _ _ => fuel

end

/-- The trailing `while (DEDENT || NEWLINE) currentPos++` loop of
`Parser::parseProgram_`. -/
def skipTrailing : Nat → List Token → Nat → Nat
  | 0, _, pos => pos
  | fuel + 1, ts, pos =>
    if pos < ts.length ∧
        ((ts.getD pos dummyEndmarker).type = .DEDENT ∨
         (ts.getD pos dummyEndmarker).type = .NEWLINE) then
      skipTrailing fuel ts (pos + 1)
    else pos

/-- `Parser::parseProgram_`: parse the statement list, skip trailing
DEDENT/NEWLINE tokens, and require an ENDMARKER. -/
def parseProgramAux (fuel : Nat) (ts : List Token) : Except PFail (List Stmt × Nat) := do
  let (stmts, pos1) ← parseStmts fuel ts 0 []
  let pos2 := skipTrailing (ts.length + 1) ts pos1
  if ts.length ≤ pos2 then .error (.err "Unexpected end of token stream")
  else if (ts.getD pos2 dummyEndmarker).type ≠ .ENDMARKER then .error (.err "Expected ENDMARKER")
  else .ok (stmts, pos2)

/-- The `Parser` constructor (append an ENDMARKER when missing) followed by
`Parser::parseProgram`.  The fuel is ample: every recursive call either
consumes a token or descends one grammar level (at most 15 levels per
token). -/
def parseProgram (ts0 : List Token) : Except PFail (List Stmt) :=
  let ts :=
    if ts0.isEmpty || !((ts0.getLastD dummyEndmarker).type == .ENDMARKER)
    then ts0 ++ [dummyEndmarker] else ts0
  match parseProgramAux ((ts.length + 1) * 64) ts with
  | .error e => .error e
  | .ok (stmts, _) => .ok stmts

/-! ## Runtime values and environment (interpreter.h) -/

/-- Runtime values (`class Value`): a tagged union over INTEGER (modelled as
`Int`), BOOLEAN, LIST and the UNDEFINED sentinel of the default
constructor. -/
inductive Value where
  | int (i : Int)
  | bool (b : Bool)
  | list (l : List Value)
  | undefined

/-- `Value::Type`. -/
inductive ValueType where
  | INTEGER | BOOLEAN | LIST | UNDEFINED
deriving DecidableEq

/-- The `type` field of a `Value`. -/
def Value.tag : Value → ValueType
  | .int _ => .INTEGER
  | .bool _ => .BOOLEAN
  | .list _ => .LIST
  | .undefined => .UNDEFINED

mutual

/-- `Value::toString` (interpreter.h lines 72-89). -/
def valueToString : Value → String
  | .int i => toString i
  | .bool b => if b then "True" else "False"
  | .list l => "[" ++ valueListToString l ++ "]"
  | .undefined => "undefined"

/-- The element loop of `Value::toString` for LIST values: elements joined
with `", "`. -/
def valueListToString : List Value → String
  | [] => ""
  | [v] => valueToString v
  | v :: rest => valueToString v ++ ", " ++ valueListToString rest

end

mutual

/-- Hereditary definedness of a runtime value: the tag is not UNDEFINED and,
for a LIST, every element is recursively defined.  Every value the evaluator
ever writes into the environment satisfies this predicate. -/
def Value.isDefined : Value → Bool
  | .int _ => true
  | .bool _ => true
  | .undefined => false
  | .list l => valuesDefined l

/-- `Value.isDefined` on every element of a list. -/
def valuesDefined : List Value → Bool
  | [] => true
  | v :: rest => Value.isDefined v && valuesDefined rest

end

/-- The variable environment: the `variables` member of `Interpreter`, a flat
map from names to values. -/
def Env : Type := String → Option Value

/-- The empty environment of a freshly constructed `Interpreter`. -/
def emptyEnv : Env := fun _ => none

/-- `variables[name] = v`: bind or rebind `name`. -/
def updateVar (env : Env) (name : String) (v : Value) : Env :=
  fun n => if n = name then some v else env n

/-- Every binding in the environment is hereditarily defined. -/
def DefinedEnv (env : Env) : Prop :=
  ∀ n v, env n = some v → Value.isDefined v = true

/-! ## Evaluator (interpreter.cpp) -/

/-- `Interpreter::performUnaryOperation` (interpreter.cpp lines 343-358).
A thrown `RuntimeError(msg)` is modelled as `.error msg` (its `what()`
prepends `"Error: "`). -/
def performUnaryOperation (op : UnOp) (operand : Value) : Except String Value :=
  match op with
  | .MINUS =>
    match operand with
    | .int i => .ok (.int (-i))
    | _ => .error "Unary minus requires integer operand"
  | .NOT =>
    match operand with
    | .bool b => .ok (.bool !b)
    | _ => .error "Logical not requires boolean operand"

/-- `Interpreter::performBinaryOperation` (interpreter.cpp lines 363-443).
`//` is C++ `int` division, which truncates toward zero: `Int.tdiv`. -/
def performBinaryOperation (left : Value) (op : BinOp) (right : Value) :
    Except String Value :=
  match op with
  | .ADD =>
    match left, right with
    | .int a, .int b => .ok (.int (a + b))
    | _, _ => .error "Addition requires integer operands"
  | .SUBTRACT =>
    match left, right with
    | .int a, .int b => .ok (.int (a - b))
    | _, _ => .error "Subtraction requires integer operands"
  | .MULTIPLY =>
    match left, right with
    | .int a, .int b => .ok (.int (a * b))
    | _, _ => .error "Multiplication requires integer operands"
  | .DIVIDE =>
    match left, right with
    | .int a, .int b =>
      if b = 0 then .error "Division by zero" else .ok (.int (Int.tdiv a b))
    | _, _ => .error "Division requires integer operands"
  | .LESS =>
    match left, right with
    | .int a, .int b => .ok (.bool (decide (a < b)))
    | _, _ => .error "Comparison requires integer operands"
  | .LESS_EQUAL =>
    match left, right with
    | .int a, .int b => .ok (.bool (decide (a ≤ b)))
    | _, _ => .error "Comparison requires integer operands"
  | .GREATER =>
    match left, right with
    | .int a, .int b => .ok (.bool (decide (b < a)))
    | _, _ => .error "Comparison requires integer operands"
  | .GREATER_EQUAL =>
    match left, right with
    | .int a, .int b => .ok (.bool (decide (b ≤ a)))
    | _, _ => .error "Comparison requires integer operands"
  | .EQUAL =>
    if left.tag ≠ right.tag then .error "Equality comparison requires same types"
    else
      match left, right with
      | .int a, .int b => .ok (.bool (decide (a = b)))
      | .bool a, .bool b => .ok (.bool (a == b))
      | _, _ => .error "Cannot compare lists"
  | .NOT_EQUAL =>
    if left.tag ≠ right.tag then .error "Equality comparison requires same types"
    else
      match left, right with
      | .int a, .int b => .ok (.bool (decide (a ≠ b)))
      | .bool a, .bool b => .ok (.bool (a != b))
      | _, _ => .error "Cannot compare lists"
  | .AND => .error "Logical operators should be handled in visit(BinaryOperation)"
  | .OR => .error "Logical operators should be handled in visit(BinaryOperation)"

/-- Expression evaluation: `Interpreter::visit` for the expression nodes
(interpreter.cpp lines 48-161).  Expressions read the environment but never
modify it and never print, so evaluation is a pure function of the
environment.  AND/OR implement the short-circuit logic of
`visit(BinaryOperation&)`; for the other operators both operands are
evaluated before `performBinaryOperation`. -/
def evalExpr : Expr → Env → Except String Value
  | .num n, _ => .ok (.int n)
  | .boolLit b, _ => .ok (.bool b)
  | .ident name, env =>
    match env name with
    | none => .error ("Undefined variable '" ++ name ++ "'")
    | some v =>
      if v.tag = .UNDEFINED then .error ("Variable '" ++ name ++ "' is undefined")
      else .ok v
  | .listAccess name idx, env =>
    match env name with
    | none => .error ("Undefined variable '" ++ name ++ "'")
    | some v =>
      match v with
      | .list l =>
        match evalExpr idx env with
        | .error m => .error m
        | .ok iv =>
          match iv with
          | .int i =>
            if i < 0 then .error "List index cannot be negative"
            else if l.length ≤ i.toNat then .error "List index out of range"
            else .ok (l.getD i.toNat .undefined)
          | _ => .error "List index must be an integer"
      | _ => .error ("Variable '" ++ name ++ "' is not a list")
  | .unary op e, env =>
    match evalExpr e env with
    | .error m => .error m
    | .ok v => performUnaryOperation op v
  | .binop op l r, env =>
    if op = .AND then
      match evalExpr l env with
      | .error m => .error m
      | .ok lv =>
        match lv with
        | .bool lb =>
          if !lb then .ok (.bool false)
          else
            match evalExpr r env with
            | .error m => .error m
            | .ok rv =>
              match rv with
              | .bool rb => .ok (.bool rb)
              | _ => .error "Logical AND requires boolean operands"
        | _ => .error "Logical AND requires boolean operands"
    else if op = .OR then
      match evalExpr l env with
      | .error m => .error m
      | .ok lv =>
        match lv with
        | .bool lb =>
          if lb then .ok (.bool true)
          else
            match evalExpr r env with
            | .error m => .error m
            | .ok rv =>
              match rv with
              | .bool rb => .ok (.bool rb)
              | _ => .error "Logical OR requires boolean operands"
        | _ => .error "Logical OR requires boolean operands"
    else
      match evalExpr l env with
      | .error m => .error m
      | .ok lv =>
        match evalExpr r env with
        | .error m => .error m
        | .ok rv => performBinaryOperation lv op rv

/-- How the execution of a statement ended: normally, by `BreakException`,
by `ContinueException`, by a `RuntimeError` carrying the message passed to
the `RuntimeError` constructor (its `what()` prepends `"Error: "`), or by
exhausting the fuel of the embedding (no C++ counterpart: the C++ program
would still be running). -/
inductive Outcome where
  | normal
  | brk
  | cont
  | error (msg : String)
  | timeout
deriving DecidableEq

/-- Interpreter state: the variable environment, the `inLoop` flag, and the
lines printed to stdout so far. -/
structure InterpState where
  vars : Env
  inLoop : Bool
  output : List String

/-- The elif scan of `Interpreter::visit(IfStatement&)` (interpreter.cpp
lines 269-282): walk the clauses in order, evaluating each condition
(type-checked as BOOLEAN), and return the body of the first true clause,
else the else-block (or `none` if absent).  Expression evaluation has no
side effects, so selecting the branch first and executing it afterwards is
observationally the same as the C++ loop, which executes the body of the
first true clause immediately. -/
def selectElif : List (Expr × Stmt) → Option Stmt → Env → Except String (Option Stmt)
  | [], elseB, _ => .ok elseB
  | (ec, body) :: rest, elseB, env =>
    match evalExpr ec env with
    | .error m => .error m
    | .ok v =>
      match v with
      | .bool bv => if bv then .ok (some body) else selectElif rest elseB env
      | _ => .error "elif condition must be boolean"

/-- Statement execution: `Interpreter::visit` for the statement nodes and
`Interpreter::executeStatement` (interpreter.cpp lines 168-336), with
`BreakException`/`ContinueException`/`RuntimeError` reflected into the
`Outcome` and `fuel` bounding the recursion of the embedding.

Encoding notes, each observationally equal to the C++ control flow:
* `Block` runs its statements in order, stopping at the first non-normal
  outcome (an exception propagates out of the loop of `visit(Block&)`);
  executing `s :: rest` is executing `s` and then the block `rest`.
* The `while (true)` loop of `visit(WhileStatement&)` is unrolled one
  iteration per recursive call; a body outcome `brk` exits with `normal`,
  `cont` and `normal` continue with the next iteration, anything else
  propagates.  `inLoop` is set for the dynamic extent of the loop and the
  saved `wasInLoop` value is restored on every exit, exactly as the
  `try { ... } catch (...) { inLoop = wasInLoop; throw; }` of the C++ code
  (statement execution never changes the flag from entry to exit, so the
  re-entered wrapper restores `true` at inner recursion levels and the
  outermost invocation restores the caller's flag). -/
def execStmt : Nat → Stmt → InterpState → InterpState × Outcome
  | 0, _, st => (st, .timeout)
  | fuel + 1, s, st =>
    match s with
    | .assign name e =>
      match evalExpr e st.vars with
      | .error m => (st, .error m)
      | .ok v => ({ st with vars := updateVar st.vars name v }, .normal)
    | .listAssign name idxE vE =>
      match st.vars name with
      | none => (st, .error ("Undefined variable '" ++ name ++ "'"))
      | some v =>
        match v with
        | .list l =>
          match evalExpr idxE st.vars with
          | .error m => (st, .error m)
          | .ok iv =>
            match iv with
            | .int i =>
              if i < 0 ∨ (l.length : Int) ≤ i then (st, .error "List index out of range")
              else
                match evalExpr vE st.vars with
                | .error m => (st, .error m)
                | .ok nv =>
                  ({ st with vars := updateVar st.vars name (.list (l.set i.toNat nv)) },
                   .normal)
            | _ => (st, .error "List index must be an integer")
        | _ => (st, .error ("Variable '" ++ name ++ "' is not a list"))
    | .listCreate name =>
      ({ st with vars := updateVar st.vars name (.list []) }, .normal)
    | .listAppend name e =>
      match st.vars name with
      | none => (st, .error ("Undefined variable '" ++ name ++ "'"))
      | some v =>
        match v with
        | .list l =>
          match evalExpr e st.vars with
          | .error m => (st, .error m)
          | .ok nv =>
            ({ st with vars := updateVar st.vars name (.list (l ++ [nv])) }, .normal)
        | _ => (st, .error ("Variable '" ++ name ++ "' is not a list"))
    | .printStmt e =>
      match evalExpr e st.vars with
      | .error m => (st, .error m)
      | .ok v => ({ st with output := st.output ++ [valueToString v] }, .normal)
    | .breakStmt =>
      if st.inLoop then (st, .brk) else (st, .error "'break' outside loop")
    | .continueStmt =>
      if st.inLoop then (st, .cont) else (st, .error "'continue' outside loop")
    | .ifStmt c tb elifs elseB =>
      match evalExpr c st.vars with
      | .error m => (st, .error m)
      | .ok v =>
        match v with
        | .bool bv =>
          if bv then execStmt fuel tb st
          else
            match selectElif elifs elseB st.vars with
            | .error m => (st, .error m)
            | .ok none => (st, .normal)
            | .ok (some b) => execStmt fuel b st
        | _ => (st, .error "if condition must be boolean")
    | .whileStmt c b =>
      let stIn : InterpState := { st with inLoop := true }
      let r : InterpState × Outcome :=
        match evalExpr c stIn.vars with
        | .error m => (stIn, .error m)
        | .ok v =>
          match v with
          | .bool bv =>
            if bv then
              match execStmt fuel b stIn with
              | (st2, .normal) => execStmt fuel (.whileStmt c b) st2
              | (st2, .cont) => execStmt fuel (.whileStmt c b) st2
              | (st2, .brk) => (st2, .normal)
              | other => other
            else (stIn, .normal)
          | _ => (stIn, .error "while condition must be boolean")
      ({ r.1 with inLoop := st.inLoop }, r.2)
    | .block [] => (st, .normal)
    | .block (s1 :: rest) =>
      match execStmt fuel s1 st with
      | (st', .normal) => execStmt fuel (.block rest) st'
      | r => r
termination_by structural fuel _ _ => fuel

/-- The state of a freshly constructed `Interpreter`: empty environment,
`inLoop` false, nothing printed. -/
def initInterpState : InterpState :=
  { vars := emptyEnv, inLoop := false, output := [] }

/-- `Interpreter::execute` on a parsed program: run the top-level statements
(the loop of `visit(Program&)`, identical to `visit(Block&)`) from the
initial state, converting a stray `BreakException`/`ContinueException` into
the corresponding `RuntimeError` exactly as the catch clauses of `execute`
do. -/
def execProgram (fuel : Nat) (prog : List Stmt) : InterpState × Outcome :=
  let r := execStmt fuel (.block prog) initInterpState
  match r.2 with
  | .brk => (r.1, .error "'break' outside loop")
  | .cont => (r.1, .error "'continue' outside loop")
  | o => (r.1, o)

/-! ## Driver (main.cpp) -/

/-- The line-terminator normalization loop of `readFile` (main.cpp lines
26-40): `\r\n` and a lone `\r` both become `\n`; everything else is kept. -/
def normalizeLineEndings : List Char → List Char
  | '\r' :: '\n' :: rest => '\n' :: normalizeLineEndings rest
  | '\r' :: rest => '\n' :: normalizeLineEndings rest
  | c :: rest => c :: normalizeLineEndings rest
  | [] => []

/-- The token debug printout of `main.cpp` (lines 66-69): one stderr line for
each of the first ten tokens, showing the enum value and the token text. -/
def tokenDebugLines (tokens : List Token) : List String :=
  (tokens.take 10).enum.map fun p =>
    "DEBUG: Token " ++ toString p.1 ++ ": " ++ toString p.2.type.toCppInt ++
      " [" ++ p.2.value ++ "]"

/-- Observable result of a run of the interpreter executable: exit code, the
lines printed to stdout and the lines printed to stderr, in order.
`timeout` is the fuel artifact of the embedding. -/
inductive RunResult where
  | finished (exitCode : Nat) (stdoutLines : List String) (stderrLines : List String)
  | timeout

def RunResult.exitCode : RunResult → Option Nat
  | .finished e _ _ => some e
  | .timeout => none

def RunResult.stdoutOf : RunResult → List String
  | .finished _ o _ => o
  | .timeout => []

def RunResult.stderrOf : RunResult → List String
  | .finished _ _ e => e
  | .timeout => []

/-- `main` of main.cpp for an `argc == 2` invocation in which the source file
opens successfully and reads as `content`: the full pipeline, with every
line `main`/`readFile` writes to stderr, in order.  `what()` of a
`ParseError`/`RuntimeError` is `"Error: " ++ msg`; the lexical-error
`std::runtime_error` of line 74 and the `std::out_of_range` thrown by
`std::stoi` (whose `what()` is `"stoi"` in libstdc++) reach the generic
`catch (const std::exception&)` handler, which prepends
`"DEBUG: Caught exception: "`. -/
def mainRun (fuel : Nat) (fileName content : String) : RunResult :=
  let normalized := String.mk (normalizeLineEndings content.toList)
  let errHead : List String :=
    ["DEBUG: Starting program...",
     "DEBUG: Reading file: " ++ fileName,
     "DEBUG: File content length: " ++ toString content.length,
     "DEBUG: File content: [" ++ content ++ "]",
     "DEBUG: Normalized content: [" ++ normalized ++ "]",
     "DEBUG: Starting lexical analysis..."]
  let tokens := tokenize normalized
  let errLex := errHead ++
    ["DEBUG: Lexer completed. Generated " ++ toString tokens.length ++ " tokens"] ++
    tokenDebugLines tokens
  match tokens.find? (fun t => t.type == .ERROR) with
  | some t => .finished 1 [] (errLex ++ ["DEBUG: Caught exception: Error: " ++ t.value])
  | none =>
    let errParse := errLex ++ ["DEBUG: Starting parsing..."]
    match parseProgram tokens with
    | .error (.err m) => .finished 1 [] (errParse ++ ["Error: " ++ m])
    | .error .oor => .finished 1 [] (errParse ++ ["DEBUG: Caught exception: stoi"])
    | .error .fuelOut => .timeout
    | .ok prog =>
      let errExec := errParse ++
        ["DEBUG: Parsing completed successfully", "DEBUG: Starting execution..."]
      match execProgram fuel prog with
      | (stE, .normal) =>
        .finished 0 stE.output
          (errExec ++ ["DEBUG: Execution completed successfully",
                       "DEBUG: Program finished normally"])
      | (stE, .error m) => .finished 1 stE.output (errExec ++ ["Error: " ++ m])
      | (stE, .brk) => .finished 1 stE.output (errExec ++ ["Error: 'break' outside loop"])
      | (stE, .cont) => .finished 1 stE.output (errExec ++ ["Error: 'continue' outside loop"])
      | (_, .timeout) => .timeout

/-! ## Supporting definitions for the verification -/

/-- Substring test: is `needle` a contiguous substring of `hay`?  Used to
make "the failure message says 'out of range'" precise. -/
def containsSub (hay needle : List Char) : Bool :=
  match hay with
  | [] => needle.isEmpty
  | _ :: t => needle.isPrefixOf hay || containsSub t needle

/-- Does the string `s` start with `pre` (on the underlying characters)?
Used to make "prefixed exactly `Error: `" precise. -/
def strStartsWith (s pre : String) : Bool := pre.toList.isPrefixOf s.toList

/-- Well-formedness of the indentation stack (top first): the bottom element
is `0` and every element above it is positive.  (The C++ stack is created
holding `0` and only ever receives pushes of strictly larger values.) -/
def StackOk (stack : List Nat) : Prop :=
  ∃ pre, stack = pre ++ [0] ∧ ∀ x ∈ pre, 0 < x

/-- No ENDMARKER token in the list (ENDMARKER is only appended once, after
the main loop of `tokenize`). -/
def NoEnd (ts : List Token) : Prop := ∀ t ∈ ts, t.type ≠ .ENDMARKER

/-- Loop invariant of `Lexer::tokenize`: the indentation stack is
well-formed, no ENDMARKER has been emitted, and the number of DEDENTs
emitted plus the stack height equals the number of INDENTs emitted plus
one. -/
def LexInv (st : LexState) : Prop :=
  StackOk st.indentStack ∧ NoEnd st.tokens ∧
  countType st.tokens .DEDENT + st.indentStack.length = countType st.tokens .INDENT + 1

/-- The invariant carried across one iteration of the `tokenize` loop: a
continuing or loop-leaving state satisfies `LexInv`; an early `done` return
(first lexical error) carries a token list without ENDMARKER. -/
def IterInv : IterResult → Prop
  | .next st' => LexInv st'
  | .finish st' => LexInv st'
  | .done ts => NoEnd ts

/-! ## General lemmas about the embedding -/

theorem updateVar_ne (env : Env) (b a : String) (v : Value) (h : a ≠ b) :
    updateVar env b v a = env a := by
  simp [updateVar, h]

theorem updateVar_self (env : Env) (b : String) (v : Value) :
    updateVar env b v b = some v := by
  simp [updateVar]

/-- T-division (C++ `int` division) in sign/magnitude form: the quotient's
magnitude is the floor of the magnitude quotient and its sign is the product
of the signs — i.e. truncation toward zero. -/
theorem tdiv_sign_natAbs (a b : Int) :
    a.tdiv b = a.sign * b.sign * ((a.natAbs / b.natAbs : Nat) : Int) := by
  rcases a with m | m <;> rcases b with n | n
  · rcases m with _ | m <;> rcases n with _ | n <;>
      simp [Int.tdiv, Int.sign, Int.natAbs]
  · rcases m with _ | m <;> simp [Int.tdiv, Int.sign, Int.natAbs]
  · rcases n with _ | n <;> simp [Int.tdiv, Int.sign, Int.natAbs]
  · simp [Int.tdiv, Int.sign, Int.natAbs, Int.negSucc_eq]

/-- C5: for every expression `E`, `False and E` evaluates to BOOLEAN false
and `True or E` to BOOLEAN true without `E` ever being evaluated (the result
is the same for every `E`, in particular for `E` whose evaluation would
fail); a non-BOOLEAN left operand of `and`/`or`, or a non-BOOLEAN evaluated
right operand, is a type error. -/
theorem c5_short_circuit :
    (∀ (E : Expr) (env : Env),
        evalExpr (.binop .AND (.boolLit false) E) env = .ok (.bool false)) ∧
    (∀ (E : Expr) (env : Env),
        evalExpr (.binop .OR (.boolLit true) E) env = .ok (.bool true)) ∧
    (∀ (e1 e2 : Expr) (env : Env) (v : Value),
        evalExpr e1 env = .ok v → v.tag ≠ .BOOLEAN →
        evalExpr (.binop .AND e1 e2) env = .error "Logical AND requires boolean operands" ∧
        evalExpr (.binop .OR e1 e2) env = .error "Logical OR requires boolean operands") ∧
    (∀ (e1 e2 : Expr) (env : Env) (v : Value),
        evalExpr e1 env = .ok (.bool true) →
        evalExpr e2 env = .ok v → v.tag ≠ .BOOLEAN →
        evalExpr (.binop .AND e1 e2) env = .error "Logical AND requires boolean operands") ∧
    (∀ (e1 e2 : Expr) (env : Env) (v : Value),
        evalExpr e1 env = .ok (.bool false) →
        evalExpr e2 env = .ok v → v.tag ≠ .BOOLEAN →
        evalExpr (.binop .OR e1 e2) env = .error "Logical OR requires boolean operands") := by
  refine ⟨fun E env => rfl, fun E env => rfl, ?_, ?_, ?_⟩
  · intro e1 e2 env v h1 hv
    constructor <;> cases v <;> simp [evalExpr, h1] <;> simp [Value.tag] at hv
  · intro e1 e2 env v h1 h2 hv
    cases v <;> simp [evalExpr, h1, h2] <;> simp [Value.tag] at hv
  · intro e1 e2 env v h1 h2 hv
    cases v <;> simp [evalExpr, h1, h2] <;> simp [Value.tag] at hv

/-- C5 witness: concrete instances of the theorem (note the right operand of
the short-circuit instance is an expression whose evaluation fails). -/
theorem c5_short_circuit_witness :
    evalExpr (.ident "nope") emptyEnv = .error "Undefined variable 'nope'" ∧
    evalExpr (.binop .AND (.boolLit false) (.ident "nope")) emptyEnv = .ok (.bool false) ∧
    evalExpr (.binop .OR (.boolLit true) (.ident "nope")) emptyEnv = .ok (.bool true) ∧
    evalExpr (.num 3) emptyEnv = .ok (.int 3) ∧ Value.tag (.int 3) ≠ .BOOLEAN ∧
    evalExpr (.binop .AND (.num 3) (.num 4)) emptyEnv =
      .error "Logical AND requires boolean operands" :=
  ⟨rfl, c5_short_circuit.1 (.ident "nope") emptyEnv,
   c5_short_circuit.2.1 (.ident "nope") emptyEnv,
   rfl, by decide,
   (c5_short_circuit.2.2.1 (.num 3) (.num 4) emptyEnv (.int 3) rfl (by decide)).1⟩

/-- C6: evaluating `e1 // e2` fails with `Division requires integer
operands` when either evaluated operand is not INTEGER, fails with exactly
`Division by zero` when both are INTEGER and the divisor is zero, and
otherwise yields `Int.tdiv`, whose sign/magnitude characterization shows it
is the integer quotient truncated toward zero. -/
theorem c6_floor_division :
    (∀ (e1 e2 : Expr) (env : Env) (v1 v2 : Value),
        evalExpr e1 env = .ok v1 → evalExpr e2 env = .ok v2 →
        (v1.tag ≠ .INTEGER ∨ v2.tag ≠ .INTEGER) →
        evalExpr (.binop .DIVIDE e1 e2) env = .error "Division requires integer operands") ∧
    (∀ (e1 e2 : Expr) (env : Env) (a b : Int),
        evalExpr e1 env = .ok (.int a) → evalExpr e2 env = .ok (.int b) →
        (b = 0 → evalExpr (.binop .DIVIDE e1 e2) env = .error "Division by zero") ∧
        (b ≠ 0 → evalExpr (.binop .DIVIDE e1 e2) env = .ok (.int (a.tdiv b)))) ∧
    (∀ a b : Int, a.tdiv b = a.sign * b.sign * ((a.natAbs / b.natAbs : Nat) : Int)) := by
  refine ⟨?_, ?_, tdiv_sign_natAbs⟩
  · intro e1 e2 env v1 v2 h1 h2 hv
    cases v1 <;> cases v2 <;>
      simp [evalExpr, performBinaryOperation, h1, h2] <;>
      simp [Value.tag] at hv
  · intro e1 e2 env a b h1 h2
    constructor
    · intro hb; simp [evalExpr, performBinaryOperation, h1, h2, hb]
    · intro hb; simp [evalExpr, performBinaryOperation, h1, h2, hb]

/-- C6 witness: `-7 // 2` truncates toward zero (quotient `-3`), `7 // 0` is
the division-by-zero error, and a BOOLEAN operand is the type error. -/
theorem c6_floor_division_witness :
    evalExpr (.binop .DIVIDE (.unary .MINUS (.num 7)) (.num 2)) emptyEnv =
      .ok (.int (-3)) ∧
    evalExpr (.binop .DIVIDE (.num 7) (.num 0)) emptyEnv = .error "Division by zero" ∧
    evalExpr (.binop .DIVIDE (.boolLit true) (.num 2)) emptyEnv =
      .error "Division requires integer operands" :=
  ⟨(c6_floor_division.2.1 (.unary .MINUS (.num 7)) (.num 2) emptyEnv (-7) 2 rfl rfl).2
      (by decide),
   (c6_floor_division.2.1 (.num 7) (.num 0) emptyEnv 7 0 rfl rfl).1 rfl,
   c6_floor_division.1 (.boolLit true) (.num 2) emptyEnv (.bool true) (.int 2) rfl rfl
      (Or.inl (by decide))⟩

/-- C7: `break`/`continue` executed while the dynamic `inLoop` flag is false
fail with exactly the claimed messages; while it is true they raise the
break/continue control outcome; and executing a `while` statement leaves the
flag as it was on entry, whatever the outcome (including errors propagating
out of the loop and fuel exhaustion), because the wrapper restores the saved
flag on every exit path. -/
theorem c7_loop_control :
    (∀ (fuel : Nat) (st : InterpState), st.inLoop = false →
        execStmt (fuel + 1) .breakStmt st = (st, .error "'break' outside loop")) ∧
    (∀ (fuel : Nat) (st : InterpState), st.inLoop = false →
        execStmt (fuel + 1) .continueStmt st = (st, .error "'continue' outside loop")) ∧
    (∀ (fuel : Nat) (st : InterpState), st.inLoop = true →
        execStmt (fuel + 1) .breakStmt st = (st, .brk) ∧
        execStmt (fuel + 1) .continueStmt st = (st, .cont)) ∧
    (∀ (fuel : Nat) (c : Expr) (b : Stmt) (st : InterpState),
        (execStmt fuel (.whileStmt c b) st).1.inLoop = st.inLoop) := by
  refine ⟨?_, ?_, ?_, ?_⟩
  · intro fuel st h; simp [execStmt, h]
  · intro fuel st h; simp [execStmt, h]
  · intro fuel st h; constructor <;> simp [execStmt, h]
  · intro fuel c b st
    cases fuel with
    | zero => rfl
    | succ f => rfl

/-- C7 witness: concrete instances — a top-level `break` errors, and a
`while` leaves the flag restored. -/
theorem c7_loop_control_witness :
    initInterpState.inLoop = false ∧
    execStmt 3 .breakStmt initInterpState = (initInterpState, .error "'break' outside loop") ∧
    execStmt 3 .continueStmt initInterpState =
      (initInterpState, .error "'continue' outside loop") ∧
    (execStmt 4 (.whileStmt (.boolLit false) .breakStmt) initInterpState).1.inLoop =
      initInterpState.inLoop :=
  ⟨rfl, c7_loop_control.1 2 initInterpState rfl, c7_loop_control.2.1 2 initInterpState rfl,
   c7_loop_control.2.2.2 4 (.boolLit false) .breakStmt initInterpState⟩

/-- C4: distinct names never alias.  Assigning `b = a` stores an independent
copy of `a`'s (list) value under `b` and leaves `a`'s binding unchanged, and
every mutation of `b` — `b.append(e)` or `b[i] = e` — leaves the value bound
to any other name `a` unchanged (the converse direction is this same
statement with the roles of `a` and `b` swapped). -/
theorem c4_no_aliasing :
    ∀ (st : InterpState) (fuel : Nat) (a b : String) (l : List Value) (e idxE : Expr),
      a ≠ b →
      ((execStmt fuel (.assign b (.ident a)) st).1.vars a = st.vars a) ∧
      (st.vars a = some (.list l) →
        execStmt (fuel + 1) (.assign b (.ident a)) st =
          ({ st with vars := updateVar st.vars b (.list l) }, .normal)) ∧
      ((execStmt fuel (.listAppend b e) st).1.vars a = st.vars a) ∧
      ((execStmt fuel (.listAssign b idxE e) st).1.vars a = st.vars a) := by
  intro st fuel a b l e idxE hab
  refine ⟨?_, ?_, ?_, ?_⟩
  · cases fuel with
    | zero => rfl
    | succ f =>
      cases h : evalExpr (.ident a) st.vars <;>
        simp [execStmt, h, updateVar_ne _ _ _ _ hab]
  · intro hla
    simp [execStmt, evalExpr, hla, Value.tag]
  · cases fuel with
    | zero => rfl
    | succ f =>
      cases hb : st.vars b with
      | none => simp [execStmt, hb]
      | some v =>
        cases v <;> simp [execStmt, hb] <;>
          cases h2 : evalExpr e st.vars <;>
            simp [h2, updateVar_ne _ _ _ _ hab]
  · cases fuel with
    | zero => rfl
    | succ f =>
      cases hb : st.vars b with
      | none => simp [execStmt, hb]
      | some v =>
        cases v with
        | list lb =>
          simp only [execStmt]
          cases h2 : evalExpr idxE st.vars with
          | error m => simp [hb, h2]
          | ok iv =>
            cases iv <;> simp [hb, h2] <;> try rfl
            case int i =>
              split
              · rfl
              · cases h3 : evalExpr e st.vars <;>
                  simp [h3, updateVar_ne _ _ _ _ hab]
        | int i => simp [execStmt, hb]
        | bool bv => simp [execStmt, hb]
        | undefined => simp [execStmt, hb]

/-- C4 witness: after `a = [1]`, appending to `b` leaves `a`'s binding
unchanged. -/
theorem c4_no_aliasing_witness :
    ("a" : String) ≠ "b" ∧
    (execStmt 5 (.listAppend "b" (.num 2))
        { vars := updateVar emptyEnv "a" (.list [.int 1]), inLoop := false,
          output := [] }).1.vars "a" =
      updateVar emptyEnv "a" (.list [.int 1]) "a" :=
  ⟨by decide,
   (c4_no_aliasing
      { vars := updateVar emptyEnv "a" (.list [.int 1]), inLoop := false, output := [] }
      5 "a" "b" [.int 1] (.num 2) (.num 0) (by decide)).2.2.1⟩

/-- C3 counterexample: with `a` bound to the one-element list `[10]`, the
access `a[-1]` has an INTEGER index outside `[0, L)`, yet the failure
message is `List index cannot be negative`, which does not contain the text
"out of range" — refuting the claim that every out-of-bounds index failure
says "out of range". -/
theorem c3_counterexample :
    evalExpr (.listAccess "a" (.unary .MINUS (.num 1)))
        (updateVar emptyEnv "a" (.list [.int 10])) =
      .error "List index cannot be negative" ∧
    containsSub "List index cannot be negative".toList "out of range".toList = false :=
  ⟨rfl, by decide⟩

/-- C3 (amended): for a name bound to a list of length `L` and an index
expression evaluating to INTEGER `i`, list access and indexed assignment
succeed exactly when `0 ≤ i < L` (yielding, or replacing, the element at
`i`); out-of-bounds indices fail, with message `List index out of range`
except for a negative index of a list *access*, whose message is
`List index cannot be negative`. -/
theorem c3_bounds_amended :
    ∀ (st : InterpState) (name : String) (l : List Value) (idxE vE : Expr)
      (i : Int) (v : Value) (fuel : Nat),
      st.vars name = some (.list l) →
      evalExpr idxE st.vars = .ok (.int i) →
      ((0 ≤ i ∧ i < (l.length : Int) →
          evalExpr (.listAccess name idxE) st.vars = .ok (l.getD i.toNat .undefined)) ∧
       (i < 0 →
          evalExpr (.listAccess name idxE) st.vars =
            .error "List index cannot be negative") ∧
       ((l.length : Int) ≤ i →
          evalExpr (.listAccess name idxE) st.vars =
            .error "List index out of range")) ∧
      (evalExpr vE st.vars = .ok v →
        ((0 ≤ i ∧ i < (l.length : Int) →
            execStmt (fuel + 1) (.listAssign name idxE vE) st =
              ({ st with vars := updateVar st.vars name (.list (l.set i.toNat v)) },
               .normal)) ∧
         (i < 0 ∨ (l.length : Int) ≤ i →
            execStmt (fuel + 1) (.listAssign name idxE vE) st =
              (st, .error "List index out of range")))) := by
  intro st name l idxE vE i v fuel hname hidx
  refine ⟨⟨?_, ?_, ?_⟩, ?_⟩
  · intro ⟨h0, hL⟩
    have h1 : ¬ i < 0 := by omega
    have h2 : ¬ l.length ≤ i.toNat := by omega
    simp [evalExpr, hname, hidx, h1, h2]
  · intro hneg
    simp [evalExpr, hname, hidx, hneg]
  · intro hover
    have h1 : ¬ i < 0 := by omega
    have h2 : l.length ≤ i.toNat := by omega
    simp [evalExpr, hname, hidx, h1, h2]
  · intro hv
    refine ⟨?_, ?_⟩
    · intro ⟨h0, hL⟩
      have h1 : ¬ (i < 0 ∨ (l.length : Int) ≤ i) := by omega
      simp [execStmt, hname, hidx, hv, h1]
    · intro hout
      simp [execStmt, hname, hidx, hout]

/-- C3 witness: on the list `[10, 20]`, index `1` is accepted (yielding the
element `20`) and index `2` is rejected as out of range. -/
theorem c3_bounds_amended_witness :
    (updateVar emptyEnv "a" (.list [.int 10, .int 20]) : Env) "a" =
      some (.list [.int 10, .int 20]) ∧
    evalExpr (.num 1) (updateVar emptyEnv "a" (.list [.int 10, .int 20])) = .ok (.int 1) ∧
    evalExpr (.listAccess "a" (.num 1))
        (updateVar emptyEnv "a" (.list [.int 10, .int 20])) = .ok (.int 20) ∧
    evalExpr (.listAccess "a" (.num 2))
        (updateVar emptyEnv "a" (.list [.int 10, .int 20])) =
      .error "List index out of range" :=
  ⟨rfl, rfl,
   (c3_bounds_amended
      { vars := updateVar emptyEnv "a" (.list [.int 10, .int 20]), inLoop := false,
        output := [] }
      "a" [.int 10, .int 20] (.num 1) (.num 0) 1 (.int 10) 0 rfl rfl).1.1
     (by constructor <;> decide),
   (c3_bounds_amended
      { vars := updateVar emptyEnv "a" (.list [.int 10, .int 20]), inLoop := false,
        output := [] }
      "a" [.int 10, .int 20] (.num 2) (.num 0) 2 (.int 10) 0 rfl rfl).1.2.2
     (by decide)⟩

theorem valuesDefined_mem {l : List Value} (h : valuesDefined l = true) :
    ∀ v ∈ l, Value.isDefined v = true := by
  induction l with
  | nil => intro v hv; cases hv
  | cons a t ih =>
    intro v hv
    rw [valuesDefined, Bool.and_eq_true] at h
    rcases List.mem_cons.mp hv with hv | hv
    · exact hv ▸ h.1
    · exact ih h.2 v hv

theorem valuesDefined_getD {l : List Value} {i : Nat} (h : valuesDefined l = true)
    (hi : i < l.length) : Value.isDefined (l.getD i .undefined) = true := by
  induction l generalizing i with
  | nil => cases hi
  | cons a t ih =>
    rw [valuesDefined, Bool.and_eq_true] at h
    cases i with
    | zero => simpa using h.1
    | succ j =>
      rw [List.getD_cons_succ]
      exact ih h.2 (by simpa using hi)

theorem valuesDefined_set {l : List Value} {i : Nat} {v : Value}
    (h : valuesDefined l = true) (hv : Value.isDefined v = true) :
    valuesDefined (l.set i v) = true := by
  induction l generalizing i with
  | nil => simpa using h
  | cons a t ih =>
    rw [valuesDefined, Bool.and_eq_true] at h
    cases i with
    | zero => rw [List.set_cons_zero, valuesDefined, Bool.and_eq_true]; exact ⟨hv, h.2⟩
    | succ j =>
      rw [List.set_cons_succ, valuesDefined, Bool.and_eq_true]
      exact ⟨h.1, ih h.2⟩

theorem valuesDefined_append {l1 l2 : List Value} (h1 : valuesDefined l1 = true)
    (h2 : valuesDefined l2 = true) : valuesDefined (l1 ++ l2) = true := by
  induction l1 with
  | nil => simpa using h2
  | cons a t ih =>
    rw [valuesDefined, Bool.and_eq_true] at h1
    rw [List.cons_append, valuesDefined, Bool.and_eq_true]
    exact ⟨h1.1, ih h1.2⟩

theorem performUnaryOperation_defined {op : UnOp} {v w : Value}
    (h : performUnaryOperation op v = .ok w) : Value.isDefined w = true := by
  cases op <;> cases v <;> simp [performUnaryOperation] at h <;>
    simp [← h, Value.isDefined]

theorem performBinaryOperation_defined {op : BinOp} {l r w : Value}
    (h : performBinaryOperation l op r = .ok w) : Value.isDefined w = true := by
  cases op <;> cases l <;> cases r <;>
    simp [performBinaryOperation, Value.tag] at h <;>
    (first
      | simp [← h, Value.isDefined]
      | (split at h <;> simp at h <;> simp [← h, Value.isDefined]))

theorem evalExpr_defined {env : Env} (henv : DefinedEnv env) :
    ∀ {e : Expr} {v : Value}, evalExpr e env = .ok v → Value.isDefined v = true := by
  intro e
  induction e with
  | num n =>
    intro v h
    simp [evalExpr] at h
    simp [← h, Value.isDefined]
  | boolLit b =>
    intro v h
    simp [evalExpr] at h
    simp [← h, Value.isDefined]
  | ident name =>
    intro v h
    cases hn : env name with
    | none => simp [evalExpr, hn] at h
    | some v0 =>
      simp only [evalExpr, hn] at h
      split at h
      · simp at h
      · rw [Except.ok.injEq] at h
        exact h ▸ henv _ _ hn
  | listAccess name idx ih =>
    intro v h
    cases hn : env name with
    | none => simp [evalExpr, hn] at h
    | some v0 =>
      cases v0 with
      | int i => simp [evalExpr, hn] at h
      | bool b => simp [evalExpr, hn] at h
      | undefined => simp [evalExpr, hn] at h
      | list l =>
        cases hidx : evalExpr idx env with
        | error m => simp [evalExpr, hn, hidx] at h
        | ok iv =>
          cases iv with
          | bool b => simp [evalExpr, hn, hidx] at h
          | list l2 => simp [evalExpr, hn, hidx] at h
          | undefined => simp [evalExpr, hn, hidx] at h
          | int i =>
            simp only [evalExpr, hn, hidx] at h
            split at h
            · simp at h
            · split at h
              · simp at h
              · rw [Except.ok.injEq] at h
                have hl : valuesDefined l = true := by
                  have := henv _ _ hn
                  simpa [Value.isDefined] using this
                rename_i h1 h2
                have hb : i.toNat < l.length := by omega
                exact h ▸ valuesDefined_getD hl hb
  | unary op e ih =>
    intro v h
    simp only [evalExpr] at h
    cases he : evalExpr e env <;> rw [he] at h
    · simp at h
    · exact performUnaryOperation_defined h
  | binop op el er ihl ihr =>
    intro v h
    simp only [evalExpr] at h
    split at h
    · cases hl : evalExpr el env <;> rw [hl] at h
      · simp at h
      · rename_i lv
        cases lv <;> simp at h
        rename_i lb
        split at h
        · rw [Except.ok.injEq] at h; simp [← h, Value.isDefined]
        · cases hr : evalExpr er env <;> rw [hr] at h
          · simp at h
          · rename_i rv
            cases rv <;> simp at h
            rw [← h]; rfl
    · split at h
      · cases hl : evalExpr el env <;> rw [hl] at h
        · simp at h
        · rename_i lv
          cases lv <;> simp at h
          rename_i lb
          split at h
          · rw [Except.ok.injEq] at h; simp [← h, Value.isDefined]
          · cases hr : evalExpr er env <;> rw [hr] at h
            · simp at h
            · rename_i rv
              cases rv <;> simp at h
              rw [← h]; rfl
      · cases hl : evalExpr el env <;> rw [hl] at h
        · simp at h
        · cases hr : evalExpr er env <;> rw [hr] at h
          · simp at h
          · exact performBinaryOperation_defined h

theorem definedEnv_update {env : Env} {name : String} {v : Value}
    (henv : DefinedEnv env) (hv : Value.isDefined v = true) :
    DefinedEnv (updateVar env name v) := by
  intro n w hw
  by_cases hn : n = name
  · subst hn
    rw [updateVar_self, Option.some.injEq] at hw
    exact hw ▸ hv
  · rw [updateVar_ne _ _ _ _ hn] at hw
    exact henv _ _ hw

theorem definedEnv_empty : DefinedEnv emptyEnv := by
  intro n v h
  simp [emptyEnv] at h

theorem selectElif_defined {env : Env} :
    ∀ {elifs : List (Expr × Stmt)} {elseB : Option Stmt} {b : Stmt},
      selectElif elifs elseB env = .ok (some b) →
      (elseB = some b ∨ ∃ c, (c, b) ∈ elifs) := by
  intro elifs
  induction elifs with
  | nil =>
    intro elseB b h
    simp [selectElif] at h
    exact Or.inl (by rw [h])
  | cons p rest ih =>
    intro elseB b h
    obtain ⟨ec, body⟩ := p
    cases hc : evalExpr ec env with
    | error m => simp [selectElif, hc] at h
    | ok v =>
      cases v with
      | bool bv =>
        cases bv with
        | true =>
          simp [selectElif, hc] at h
          exact Or.inr ⟨ec, by simp [h]⟩
        | false =>
          simp only [selectElif, hc] at h
          rcases ih h with h' | ⟨c, hc'⟩
          · exact Or.inl h'
          · exact Or.inr ⟨c, List.mem_cons_of_mem _ hc'⟩
      | int i => simp [selectElif, hc] at h
      | list l => simp [selectElif, hc] at h
      | undefined => simp [selectElif, hc] at h

/-- Executing any statement preserves hereditary definedness of the
environment: every value the interpreter writes is INTEGER, BOOLEAN or a
LIST of defined values. -/
theorem execStmt_definedEnv :
    ∀ (fuel : Nat) (s : Stmt) (st : InterpState),
      DefinedEnv st.vars → DefinedEnv (execStmt fuel s st).1.vars := by
  intro fuel
  induction fuel with
  | zero => intro s st h; exact h
  | succ f ih =>
    intro s st h
    cases s with
    | assign name e =>
      cases he : evalExpr e st.vars with
      | error m => simpa [execStmt, he] using h
      | ok v =>
        simp only [execStmt, he]
        exact definedEnv_update h (evalExpr_defined h he)
    | listAssign name idxE vE =>
      cases hn : st.vars name with
      | none => simpa [execStmt, hn] using h
      | some v0 =>
        cases v0 with
        | int i => simpa [execStmt, hn] using h
        | bool b => simpa [execStmt, hn] using h
        | undefined => simpa [execStmt, hn] using h
        | list l =>
          cases hidx : evalExpr idxE st.vars with
          | error m => simpa [execStmt, hn, hidx] using h
          | ok iv =>
            cases iv with
            | bool b => simpa [execStmt, hn, hidx] using h
            | list l2 => simpa [execStmt, hn, hidx] using h
            | undefined => simpa [execStmt, hn, hidx] using h
            | int i =>
              simp only [execStmt, hn, hidx]
              split
              · exact h
              · cases hv : evalExpr vE st.vars with
                | error m => simpa using h
                | ok nv =>
                  simp only []
                  have hl : valuesDefined l = true := by
                    have := h _ _ hn
                    simpa [Value.isDefined] using this
                  refine definedEnv_update h ?_
                  simp [Value.isDefined]
                  exact valuesDefined_set hl (evalExpr_defined h hv)
    | listCreate name =>
      simp only [execStmt]
      exact definedEnv_update h (by simp [Value.isDefined, valuesDefined])
    | listAppend name e =>
      cases hn : st.vars name with
      | none => simpa [execStmt, hn] using h
      | some v0 =>
        cases v0 with
        | int i => simpa [execStmt, hn] using h
        | bool b => simpa [execStmt, hn] using h
        | undefined => simpa [execStmt, hn] using h
        | list l =>
          cases he : evalExpr e st.vars with
          | error m => simpa [execStmt, hn, he] using h
          | ok nv =>
            simp only [execStmt, hn, he]
            have hl : valuesDefined l = true := by
              have := h _ _ hn
              simpa [Value.isDefined] using this
            refine definedEnv_update h ?_
            simp [Value.isDefined]
            exact valuesDefined_append hl
              (by simp [valuesDefined, evalExpr_defined h he])
    | printStmt e =>
      cases he : evalExpr e st.vars with
      | error m => simpa [execStmt, he] using h
      | ok v => simpa [execStmt, he] using h
    | breakStmt =>
      cases hl : st.inLoop <;> simpa [execStmt, hl] using h
    | continueStmt =>
      cases hl : st.inLoop <;> simpa [execStmt, hl] using h
    | ifStmt c tb elifs elseB =>
      cases hc : evalExpr c st.vars with
      | error m => simpa [execStmt, hc] using h
      | ok v =>
        cases v with
        | int i => simpa [execStmt, hc] using h
        | list l => simpa [execStmt, hc] using h
        | undefined => simpa [execStmt, hc] using h
        | bool bv =>
          cases bv with
          | true => simpa [execStmt, hc] using ih tb st h
          | false =>
            cases hsel : selectElif elifs elseB st.vars with
            | error m => simpa [execStmt, hc, hsel] using h
            | ok ob =>
              cases ob with
              | none => simpa [execStmt, hc, hsel] using h
              | some b => simpa [execStmt, hc, hsel] using ih b st h
    | whileStmt c b =>
      simp only [execStmt]
      cases hc : evalExpr c (InterpState.vars { st with inLoop := true }) with
      | error m => simpa [hc] using h
      | ok v =>
        cases v with
        | int i => simpa [hc] using h
        | list l => simpa [hc] using h
        | undefined => simpa [hc] using h
        | bool bv =>
          cases bv with
          | false => simpa [hc] using h
          | true =>
            have hbody := ih b { st with inLoop := true } h
            cases hb : execStmt f b { st with inLoop := true } with
            | mk st2 o =>
              rw [hb] at hbody
              cases o with
              | normal => simpa [hc, hb] using ih (.whileStmt c b) st2 hbody
              | cont => simpa [hc, hb] using ih (.whileStmt c b) st2 hbody
              | brk => simpa [hc, hb] using hbody
              | error m => simpa [hc, hb] using hbody
              | timeout => simpa [hc, hb] using hbody
    | block stmts =>
      cases stmts with
      | nil => simpa [execStmt] using h
      | cons s1 rest =>
        have h1 := ih s1 st h
        cases hs : execStmt f s1 st with
        | mk st' o =>
          rw [hs] at h1
          cases o with
          | normal => simpa [execStmt, hs] using ih (.block rest) st' h1
          | brk => simpa [execStmt, hs] using h1
          | cont => simpa [execStmt, hs] using h1
          | error m => simpa [execStmt, hs] using h1
          | timeout => simpa [execStmt, hs] using h1

/-- C8: evaluating identifier `n` yields a copy of the environment entry
when one exists and is not UNDEFINED, and fails with exactly
`Undefined variable '<n>'` when `n` is absent; moreover every environment
write performed by statement execution keeps all bindings hereditarily
defined (INTEGER, BOOLEAN, or a LIST of such), the initial environment is
(vacuously) so, and a defined environment never binds a name to UNDEFINED —
hence, in every program run, the UNDEFINED branch of `visit(Identifier&)`
(whose message differs) is unreachable and the only identifier failure
message is `Undefined variable '<n>'`. -/
theorem c8_identifier_lookup :
    (∀ (env : Env) (n : String) (v : Value),
        env n = some v → v ≠ .undefined → evalExpr (.ident n) env = .ok v) ∧
    (∀ (env : Env) (n : String),
        env n = none →
        evalExpr (.ident n) env = .error ("Undefined variable '" ++ n ++ "'")) ∧
    (∀ (fuel : Nat) (s : Stmt) (st : InterpState),
        DefinedEnv st.vars → DefinedEnv (execStmt fuel s st).1.vars) ∧
    DefinedEnv initInterpState.vars ∧
    (∀ (env : Env) (n : String), DefinedEnv env → env n ≠ some Value.undefined) := by
  refine ⟨?_, ?_, execStmt_definedEnv, definedEnv_empty, ?_⟩
  · intro env n v hn hv
    have htag : v.tag ≠ .UNDEFINED := by
      cases v <;> simp [Value.tag] <;> exact absurd rfl hv
    simp [evalExpr, hn, htag]
  · intro env n hn
    simp [evalExpr, hn]
  · intro env n henv hcontra
    have := henv _ _ hcontra
    simp [Value.isDefined] at this

/-- C8 witness: a bound name evaluates to its value, an unbound one to the
`Undefined variable` error, and one execution step preserves definedness of
a concrete defined environment. -/
theorem c8_identifier_lookup_witness :
    (updateVar emptyEnv "x" (.int 3) : Env) "x" = some (.int 3) ∧
    evalExpr (.ident "x") (updateVar emptyEnv "x" (.int 3)) = .ok (.int 3) ∧
    evalExpr (.ident "y") (updateVar emptyEnv "x" (.int 3)) =
      .error "Undefined variable 'y'" ∧
    DefinedEnv (execStmt 1 (.assign "y" (.num 7))
        { vars := updateVar emptyEnv "x" (.int 3), inLoop := false, output := [] }).1.vars :=
  ⟨rfl,
   c8_identifier_lookup.1 (updateVar emptyEnv "x" (.int 3)) "x" (.int 3) rfl (by simp),
   c8_identifier_lookup.2.1 (updateVar emptyEnv "x" (.int 3)) "y" rfl,
   c8_identifier_lookup.2.2.1 1 (.assign "y" (.num 7))
     { vars := updateVar emptyEnv "x" (.int 3), inLoop := false, output := [] }
     (by
       intro n v hn
       dsimp only at hn
       by_cases hx : n = "x"
       · subst hx
         rw [updateVar_self, Option.some.injEq] at hn
         simp [← hn, Value.isDefined]
       · rw [updateVar_ne _ _ _ _ hx] at hn
         simp [emptyEnv] at hn)⟩

/-- C1 (code refutation): on the successful run of the one-line program
`x = 1` the process exits 0 with stdout exactly the (empty) print output,
yet stderr is NOT empty — `main.cpp`/`readFile` write their `DEBUG: ...`
trace to stderr on every run — and none of its lines carries the
`Error: ` prefix.  This contradicts "for every program that executes
successfully (exit code 0), stderr is empty", and with it the claim that
everything on stderr is an `Error: `-prefixed diagnostic. -/
theorem c1_debug_output_on_success :
    (mainRun 64 "prog.py" "x = 1\n").exitCode = some 0 ∧
    (mainRun 64 "prog.py" "x = 1\n").stdoutOf = [] ∧
    (mainRun 64 "prog.py" "x = 1\n").stderrOf ≠ [] ∧
    ((mainRun 64 "prog.py" "x = 1\n").stderrOf.map
        (fun l => strStartsWith l "Error: ")).all (fun b => !b) = true ∧
    (mainRun 64 "prog.py" "x = 1\n").stderrOf.headD "" = "DEBUG: Starting program..." :=
  ⟨rfl, rfl, by decide, by decide, rfl⟩

/-- C10: the digit string `99999999999` exceeds the 32-bit `int` range, yet
the tokenizer accepts it (no ERROR token; a NUM token with exactly that
text, and the stream ends with ENDMARKER); parsing it then fails not with a
`ParseError` but with the `std::out_of_range` thrown by `std::stoi` in
`Parser::parseFactor`, so the process exits 1 with a final stderr diagnostic
`DEBUG: Caught exception: stoi` that is not prefixed `Error: `. -/
theorem c10_stoi_out_of_range :
    (tokenize "x = 99999999999\n").find? (fun t => t.type == .ERROR) = none ∧
    (tokenize "x = 99999999999\n").map Token.type =
      [.ID, .ASSIGN, .NUM, .NEWLINE, .ENDMARKER] ∧
    (tokenize "x = 99999999999\n").map Token.value =
      ["x", "=", "99999999999", "\\n", "EOF"] ∧
    parseProgram (tokenize "x = 99999999999\n") = .error .oor ∧
    (mainRun 64 "prog.py" "x = 99999999999\n").exitCode = some 1 ∧
    (mainRun 64 "prog.py" "x = 99999999999\n").stderrOf.getLast? =
      some "DEBUG: Caught exception: stoi" ∧
    strStartsWith "DEBUG: Caught exception: stoi" "Error: " = false :=
  ⟨rfl, rfl, rfl, rfl, rfl, rfl, by decide⟩

/-- C2 counterexample: on the input consisting of a single blank line
(`"\n"`), the tokenizer emits a NEWLINE token for that line — so a blank
line is *not* entirely token-free as the claim states.  (The INDENT/DEDENT
part of the claim does hold; see the amended theorem.) -/
theorem c2_counterexample :
    (tokenize "\n").map Token.type = [.NEWLINE, .ENDMARKER] ∧
    countType (tokenize "\n") .NEWLINE = 1 :=
  ⟨rfl, rfl⟩

/-- The indentation-counting loop consumes exactly the leading tab/space run:
on `ws ++ rest` with `ws` all tabs/spaces and `rest` not starting with one,
it stops at `rest` having counted `ws.length` more characters. -/
theorem countIndent_ws :
    ∀ (ws rest : List Char) (n : Nat) (f : Char) (m : Bool),
      (∀ c ∈ ws, c = '\t' ∨ c = ' ') →
      rest.headD '\x00' ≠ '\t' → rest.headD '\x00' ≠ ' ' →
      ∃ f' m', countIndent (ws ++ rest) n f m = (rest, n + ws.length, f', m') := by
  intro ws
  induction ws with
  | nil =>
    intro rest n f m _ h1 h2
    cases rest with
    | nil => exact ⟨f, m, rfl⟩
    | cons c r =>
      refine ⟨f, m, ?_⟩
      have hc : ¬ (c = '\t' ∨ c = ' ') := by
        simp only [List.headD_cons] at h1 h2
        rintro (rfl | rfl) <;> simp at h1 h2
      simp [countIndent, hc]
  | cons c ws' ih =>
    intro rest n f m hws h1 h2
    have hc : c = '\t' ∨ c = ' ' := hws c (List.mem_cons_self c ws')
    obtain ⟨f', m', heq⟩ := ih rest (n + 1) (if f = '\x00' then c else f)
        (m || (f != '\x00' && f != c))
        (fun d hd => hws d (List.mem_cons_of_mem _ hd)) h1 h2
    refine ⟨f', m', ?_⟩
    rw [List.cons_append]
    rw [countIndent.eq_def]
    simp only [if_pos hc]
    rw [heq]
    have hlen : n + 1 + ws'.length = n + (c :: ws').length := by
      simp [List.length_cons]; omega
    rw [hlen]

/-- C2 (amended): for a blank input line — leading tabs/spaces followed
directly by `'\n'` or end of input — the tokenizer emits no INDENT and no
DEDENT and leaves the indentation stack unchanged, but the line is not
entirely token-free: when it ends with `'\n'` the loop iteration emits
exactly one NEWLINE token for it (when it ends at end of input nothing is
emitted and the loop proceeds to the final DEDENT/ENDMARKER flush). -/
theorem c2_blank_line_amended :
    ∀ (st : LexState) (ws rest : List Char),
      st.atLineStart = true →
      lastIsErr st.tokens = false →
      st.src = ws ++ rest →
      (∀ c ∈ ws, c = '\t' ∨ c = ' ') →
      ((∀ r', rest = '\n' :: r' →
          lexIter st =
            .next ⟨r', st.line + 1, 1, true, st.indentStack,
                   st.tokens ++ [⟨.NEWLINE, "\\n", st.line, st.col + ws.length⟩]⟩) ∧
       (rest = [] →
          lexIter st =
            .finish ⟨[], st.line, st.col + ws.length, st.atLineStart,
                     st.indentStack, st.tokens⟩)) := by
  intro st ws rest hA hE hsrc hws
  constructor
  · intro r' hrest
    subst hrest
    obtain ⟨f', m', hc⟩ :=
      countIndent_ws ws ('\n' :: r') 0 '\x00' false hws (by simp) (by simp)
    have hh : handleIndentation st =
        { st with src := '\n' :: r', col := st.col + ws.length } := by
      rw [handleIndentation.eq_def]
      simp [hA, hsrc, hc, currentChar]
    rw [lexIter.eq_def]
    simp only [hA, if_pos rfl, hh]
    have hE' : lastIsErr st.tokens = false := hE
    simp only [hE', Bool.false_eq_true, if_neg (by simp [hE'] : ¬ lastIsErr st.tokens = true)]
    rw [lexBody.eq_def]
    simp [currentChar, advance]
  · intro hrest
    subst hrest
    obtain ⟨f', m', hc⟩ :=
      countIndent_ws ws [] 0 '\x00' false hws (by simp) (by simp)
    have hc' : countIndent ws 0 '\x00' false = ([], 0 + ws.length, f', m') := by
      simpa using hc
    have hh : handleIndentation st =
        { st with src := [], col := st.col + ws.length } := by
      rw [handleIndentation.eq_def]
      simp [hA, hsrc, hc', currentChar]
    rw [lexIter.eq_def]
    simp only [hA, if_pos rfl, hh]
    simp only [hE, Bool.false_eq_true, if_neg (by simp [hE] : ¬ lastIsErr st.tokens = true)]
    rw [lexBody.eq_def]
    simp [currentChar]

/-- C2 witness: a concrete state at a line start whose line is `"  \n"`;
the iteration emits exactly one NEWLINE, no INDENT/DEDENT, and leaves the
stack `[0]` unchanged. -/
theorem c2_blank_line_amended_witness :
    (⟨[' ', ' ', '\n', 'x'], 1, 1, true, [0], []⟩ : LexState).atLineStart = true ∧
    lexIter ⟨[' ', ' ', '\n', 'x'], 1, 1, true, [0], []⟩ =
      .next ⟨['x'], 2, 1, true, [0], [⟨.NEWLINE, "\\n", 1, 3⟩]⟩ :=
  ⟨rfl,
   (c2_blank_line_amended ⟨[' ', ' ', '\n', 'x'], 1, 1, true, [0], []⟩
      [' ', ' '] ['\n', 'x'] rfl rfl rfl (by decide)).1 ['x'] rfl⟩

theorem countType_append (ts1 ts2 : List Token) (k : TokenType) :
    countType (ts1 ++ ts2) k = countType ts1 k + countType ts2 k := by
  simp [countType, List.countP_append]

theorem countType_dedents {ts : List Token} (h : ∀ t ∈ ts, t.type = .DEDENT) :
    countType ts .DEDENT = ts.length ∧ countType ts .INDENT = 0 := by
  constructor
  · rw [countType, List.countP_eq_length]
    intro t ht; simp [h t ht]
  · rw [countType, List.countP_eq_zero]
    intro t ht; simp [h t ht]

theorem noEnd_nil : NoEnd [] := by intro t ht; cases ht

theorem noEnd_append {ts1 ts2 : List Token} (h1 : NoEnd ts1) (h2 : NoEnd ts2) :
    NoEnd (ts1 ++ ts2) := by
  intro t ht
  rcases List.mem_append.mp ht with ht | ht
  · exact h1 t ht
  · exact h2 t ht

theorem lastMem {α : Type} : ∀ (l : List α) (a : α), l.getLast? = some a → a ∈ l := by
  intro l
  induction l with
  | nil => intro a h; simp at h
  | cons x t ih =>
    intro a h
    cases t with
    | nil => simp at h; simp [h]
    | cons y t' =>
      rw [List.getLast?_cons_cons] at h
      exact List.mem_cons_of_mem _ (ih a h)

theorem popDedents_spec :
    ∀ (pre : List Nat) (level ln cl : Nat),
      (∀ x ∈ pre, 0 < x) →
      StackOk (popDedents (pre ++ [0]) level ln cl).1 ∧
      (∀ t ∈ (popDedents (pre ++ [0]) level ln cl).2, t.type = .DEDENT) ∧
      (popDedents (pre ++ [0]) level ln cl).2.length +
        (popDedents (pre ++ [0]) level ln cl).1.length = (pre ++ [0]).length := by
  intro pre
  induction pre with
  | nil =>
    intro level ln cl _
    simp [popDedents]
    exact ⟨[], rfl, by simp⟩
  | cons a t ih =>
    intro level ln cl hpre
    have hrec := ih level ln cl (fun x hx => hpre x (List.mem_cons_of_mem _ hx))
    have hlen := hrec.2.2
    by_cases ha : a > level
    · rw [List.cons_append]
      simp only [popDedents, if_pos ha]
      refine ⟨hrec.1, ?_, ?_⟩
      · intro tok htok
        rcases List.mem_cons.mp htok with htok | htok
        · rw [htok]
        · exact hrec.2.1 tok htok
      · simp only [List.length_cons, List.length_append] at hlen ⊢
        omega
    · rw [List.cons_append]
      simp only [popDedents, if_neg ha]
      refine ⟨⟨a :: t, by simp, hpre⟩, ?_, by simp⟩
      intro tok htok
      simp at htok

theorem popDedents_zero :
    ∀ (pre : List Nat) (ln cl : Nat),
      (∀ x ∈ pre, 0 < x) →
      (popDedents (pre ++ [0]) 0 ln cl).1 = [0] ∧
      (∀ t ∈ (popDedents (pre ++ [0]) 0 ln cl).2, t.type = .DEDENT) ∧
      (popDedents (pre ++ [0]) 0 ln cl).2.length + 1 = (pre ++ [0]).length := by
  intro pre
  induction pre with
  | nil =>
    intro ln cl _
    simp [popDedents]
  | cons a t ih =>
    intro ln cl hpre
    have ha : 0 < a := hpre a (List.mem_cons_self _ _)
    have hrec := ih ln cl (fun x hx => hpre x (List.mem_cons_of_mem _ hx))
    have hlen := hrec.2.2
    rw [List.cons_append]
    simp only [popDedents, if_pos (by omega : a > 0)]
    refine ⟨hrec.1, ?_, ?_⟩
    · intro tok htok
      rcases List.mem_cons.mp htok with htok | htok
      · rw [htok]
      · exact hrec.2.1 tok htok
    · simp only [List.length_cons, List.length_append] at hlen ⊢
      omega

theorem lexInv_of_eq {st st' : LexState} (hinv : LexInv st)
    (hstack : st'.indentStack = st.indentStack)
    (htok : st'.tokens = st.tokens) : LexInv st' := by
  unfold LexInv at *
  rw [hstack, htok]
  exact hinv

theorem lexInv_push {st st' : LexState} {t : Token} (hinv : LexInv st)
    (hstack : st'.indentStack = st.indentStack)
    (htok : st'.tokens = st.tokens ++ [t])
    (h1 : t.type ≠ .INDENT) (h2 : t.type ≠ .DEDENT) (h3 : t.type ≠ .ENDMARKER) :
    LexInv st' := by
  obtain ⟨hs, hn, hc⟩ := hinv
  refine ⟨hstack ▸ hs, ?_, ?_⟩
  · rw [htok]
    exact noEnd_append hn (fun tok htok => by
      rcases List.mem_singleton.mp htok with rfl; exact h3)
  · rw [htok, hstack, countType_append, countType_append]
    have hd : countType [t] .DEDENT = 0 := by
      simp [countType, List.countP_cons, h2]
    have hi : countType [t] .INDENT = 0 := by
      simp [countType, List.countP_cons, h1]
    omega

theorem advance_frame (st : LexState) :
    (advance st).tokens = st.tokens ∧ (advance st).indentStack = st.indentStack := by
  cases h : st.src with
  | nil => simp [advance, h]
  | cons c rest =>
    by_cases hc : c = '\n' <;> simp [advance, h, hc]

theorem skipWhitespace_frame (st : LexState) :
    (skipWhitespace st).tokens = st.tokens ∧
    (skipWhitespace st).indentStack = st.indentStack := by
  simp [skipWhitespace]

theorem makeNumber_frame (st : LexState) :
    (makeNumber st).2.tokens = st.tokens ∧
    (makeNumber st).2.indentStack = st.indentStack ∧
    ((makeNumber st).1.type = .NUM ∨ (makeNumber st).1.type = .ERROR) := by
  rw [makeNumber.eq_def]
  split
  · split <;> simp
  · split <;> simp
  · simp

theorem keywordLookup_not_structural (s : String) :
    ((keywordLookup s).getD .ID) ≠ .INDENT ∧
    ((keywordLookup s).getD .ID) ≠ .DEDENT ∧
    ((keywordLookup s).getD .ID) ≠ .ENDMARKER := by
  have h : ∀ t, keywordLookup s = some t →
      t ≠ .INDENT ∧ t ≠ .DEDENT ∧ t ≠ .ENDMARKER := by
    intro t ht
    unfold keywordLookup keywords at ht
    simp only [List.lookup] at ht
    repeat' split at ht
    all_goals first | (simp only [Option.some.injEq] at ht; subst ht; simp) | simp at ht
  cases hk : keywordLookup s with
  | none => simp
  | some t => simpa using h t hk

theorem makeIdentifier_frame (st : LexState) :
    (makeIdentifier st).2.tokens = st.tokens ∧
    (makeIdentifier st).2.indentStack = st.indentStack ∧
    (makeIdentifier st).1.type ≠ .INDENT ∧
    (makeIdentifier st).1.type ≠ .DEDENT ∧
    (makeIdentifier st).1.type ≠ .ENDMARKER := by
  rw [makeIdentifier.eq_def]
  split
  · split
    · refine ⟨rfl, rfl, ?_, ?_, ?_⟩
      · exact (keywordLookup_not_structural _).1
      · exact (keywordLookup_not_structural _).2.1
      · exact (keywordLookup_not_structural _).2.2
    · simp
  · simp

theorem makeTwoCharOperator_frame (st : LexState) :
    (makeTwoCharOperator st).2.tokens = st.tokens ∧
    (makeTwoCharOperator st).2.indentStack = st.indentStack ∧
    (makeTwoCharOperator st).1.type ≠ .INDENT ∧
    (makeTwoCharOperator st).1.type ≠ .DEDENT ∧
    (makeTwoCharOperator st).1.type ≠ .ENDMARKER := by
  rw [makeTwoCharOperator.eq_def]
  dsimp only
  refine ⟨?_, ?_, ?_, ?_, ?_⟩ <;> (repeat' split) <;> simp [consumeOp]

theorem lastIsErr_concat (ts : List Token) (t : Token) :
    lastIsErr (ts ++ [t]) = (t.type == .ERROR) := by
  rw [lastIsErr, List.getLast?_concat]

theorem applyIndentLevel_inv (st : LexState) (level : Nat) (hinv : LexInv st) :
    LexInv (applyIndentLevel st level) ∨
    (lastIsErr (applyIndentLevel st level).tokens = true ∧
     NoEnd (applyIndentLevel st level).tokens) := by
  obtain ⟨⟨pre, hstack, hpre⟩, hnoend, hcount⟩ := hinv
  rw [applyIndentLevel.eq_def]
  dsimp only
  split
  · -- empty stack (unreachable under StackOk, but the code guards it)
    rename_i heq
    rw [hstack] at heq
    cases pre <;> simp at heq
  · rename_i top rest heq
    have htop : 0 < level → 0 < level := fun h => h
    split
    · -- level > top : push, emit INDENT
      rename_i hgt
      left
      have hlevel : 0 < level := by
        rcases pre with _ | ⟨a, pre'⟩
        · rw [hstack] at heq
          simp at heq
          omega
        · rw [hstack] at heq
          simp at heq
          have := hpre a (List.mem_cons_self _ _)
          omega
      refine ⟨⟨level :: pre, by simp [hstack], ?_⟩, ?_, ?_⟩
      · intro x hx
        rcases List.mem_cons.mp hx with rfl | hx
        · exact hlevel
        · exact hpre x hx
      · exact noEnd_append hnoend (fun t ht => by
          rcases List.mem_singleton.mp ht with rfl; simp)
      · simp only [countType_append, List.length_cons]
        have h1 : countType [⟨.INDENT, "", st.line, st.col⟩] .DEDENT = 0 := by
          simp [countType]
        have h2 : countType [⟨.INDENT, "", st.line, st.col⟩] .INDENT = 1 := by
          simp [countType]
        omega
    · split
      · -- level < top : pop, emit DEDENTs, check the new top
        rename_i hgt hlt
        have hspec := popDedents_spec pre level st.line st.col hpre
        rw [← hstack] at hspec
        obtain ⟨hsok, hded, hlen⟩ := hspec
        split
        · -- popped stack empty: unreachable under StackOk, code emits an error
          rename_i hp1
          obtain ⟨pre', hp1', _⟩ := hsok
          rw [hp1] at hp1'
          cases pre' <;> simp at hp1'
        · rename_i t rest' hp1
          split
          · -- top ≠ level : error after the DEDENTs
            right
            constructor
            · dsimp only
              rw [lastIsErr_concat]
              simp
            · refine noEnd_append (noEnd_append hnoend ?_) ?_
              · intro tok htok
                rw [hded tok htok]
                simp
              · intro tok htok
                rcases List.mem_singleton.mp htok with rfl
                simp
          · -- top = level : DEDENTs emitted, stack popped
            left
            refine ⟨hsok.imp ?_, ?_, ?_⟩
            · intro pre' h
              dsimp only
              exact h
            · refine noEnd_append hnoend ?_
              intro tok htok
              rw [hded tok htok]
              simp
            · simp only [countType_append]
              have hdc1 := (countType_dedents hded).1
              have hdc2 := (countType_dedents hded).2
              omega
      · -- level = top : nothing emitted
        left
        exact ⟨⟨pre, hstack, hpre⟩, hnoend, hcount⟩

theorem handleIndentation_inv (st : LexState) (hinv : LexInv st) :
    LexInv (handleIndentation st) ∨
    (lastIsErr (handleIndentation st).tokens = true ∧
     NoEnd (handleIndentation st).tokens) := by
  rw [handleIndentation.eq_def]
  dsimp only
  split
  · exact Or.inl hinv
  · split
    · exact Or.inl (lexInv_of_eq hinv rfl rfl)
    · split
      · right
        constructor
        · rw [lastIsErr_concat]; simp
        · exact noEnd_append hinv.2.1 (fun t ht => by
            rcases List.mem_singleton.mp ht with rfl; simp)
      · split
        · exact applyIndentLevel_inv _ _ (lexInv_of_eq hinv rfl rfl)
        · split
          · right
            constructor
            · rw [lastIsErr_concat]; simp
            · exact noEnd_append hinv.2.1 (fun t ht => by
                rcases List.mem_singleton.mp ht with rfl; simp)
          · exact applyIndentLevel_inv _ _ (lexInv_of_eq hinv rfl rfl)

theorem advance_tokens (st : LexState) : (advance st).tokens = st.tokens :=
  (advance_frame st).1

theorem advance_stack (st : LexState) : (advance st).indentStack = st.indentStack :=
  (advance_frame st).2

theorem makeNumber_tokens (st : LexState) : (makeNumber st).2.tokens = st.tokens :=
  (makeNumber_frame st).1

theorem makeNumber_stack (st : LexState) :
    (makeNumber st).2.indentStack = st.indentStack :=
  (makeNumber_frame st).2.1

theorem makeNumber_type (st : LexState) :
    (makeNumber st).1.type = .NUM ∨ (makeNumber st).1.type = .ERROR :=
  (makeNumber_frame st).2.2

theorem makeIdentifier_tokens (st : LexState) :
    (makeIdentifier st).2.tokens = st.tokens :=
  (makeIdentifier_frame st).1

theorem makeIdentifier_stack (st : LexState) :
    (makeIdentifier st).2.indentStack = st.indentStack :=
  (makeIdentifier_frame st).2.1

theorem makeTwoCharOperator_tokens (st : LexState) :
    (makeTwoCharOperator st).2.tokens = st.tokens :=
  (makeTwoCharOperator_frame st).1

theorem makeTwoCharOperator_stack (st : LexState) :
    (makeTwoCharOperator st).2.indentStack = st.indentStack :=
  (makeTwoCharOperator_frame st).2.1

theorem lexInv_append_tok {st : LexState} (hinv : LexInv st) (base : LexState)
    (t : Token) (hbt : base.tokens = st.tokens) (hbs : base.indentStack = st.indentStack)
    (h1 : t.type ≠ .INDENT) (h2 : t.type ≠ .DEDENT) (h3 : t.type ≠ .ENDMARKER) :
    LexInv { base with tokens := base.tokens ++ [t] } :=
  lexInv_push hinv (by simpa using hbs) (by simpa using hbt) h1 h2 h3

theorem noEnd_append_tok {st : LexState} (hinv : LexInv st) (base : LexState)
    (t : Token) (hbt : base.tokens = st.tokens) (h3 : t.type ≠ .ENDMARKER) :
    NoEnd (base.tokens ++ [t]) := by
  rw [hbt]
  exact noEnd_append hinv.2.1 (fun tok htok => by
    rcases List.mem_singleton.mp htok with rfl; exact h3)

theorem lexBody_inv (st : LexState) (hinv : LexInv st) : IterInv (lexBody st) := by
  rw [lexBody.eq_def]
  dsimp only
  by_cases h0 : currentChar st = '\x00'
  · rw [if_pos h0]; exact hinv
  rw [if_neg h0]
  by_cases h1 : currentChar st = '\n'
  · rw [if_pos h1]
    exact lexInv_push hinv ((advance_stack _).trans rfl) ((advance_tokens _).trans rfl)
      (by simp) (by simp) (by simp)
  rw [if_neg h1]
  by_cases h2 : currentChar st = ' '
  · rw [if_pos h2]
    exact lexInv_of_eq hinv (skipWhitespace_frame st).2 (skipWhitespace_frame st).1
  rw [if_neg h2]
  by_cases h3 : isDigitCh (currentChar st)
  · rw [if_pos h3]
    by_cases he : (makeNumber st).1.type = .ERROR
    · rw [if_pos he]
      exact noEnd_append_tok hinv _ _ (makeNumber_tokens st) (by simp [he])
    · rw [if_neg he]
      rcases makeNumber_type st with hn | hn
      · exact lexInv_append_tok hinv _ _ (makeNumber_tokens st) (makeNumber_stack st)
          (by simp [hn]) (by simp [hn]) (by simp [hn])
      · exact absurd hn he
  rw [if_neg h3]
  by_cases h4 : isAlphaCh (currentChar st)
  · rw [if_pos h4]
    by_cases he : (makeIdentifier st).1.type = .ERROR
    · rw [if_pos he]
      exact noEnd_append_tok hinv _ _ (makeIdentifier_tokens st)
        (makeIdentifier_frame st).2.2.2.2
    · rw [if_neg he]
      exact lexInv_append_tok hinv _ _ (makeIdentifier_tokens st) (makeIdentifier_stack st)
        (makeIdentifier_frame st).2.2.1 (makeIdentifier_frame st).2.2.2.1
        (makeIdentifier_frame st).2.2.2.2
  rw [if_neg h4]
  by_cases h5 : currentChar st = '=' ∨ currentChar st = '!' ∨ currentChar st = '<' ∨
      currentChar st = '>' ∨ currentChar st = '/'
  · rw [if_pos h5]
    by_cases he : (makeTwoCharOperator st).1.type = .ERROR
    · rw [if_pos he]
      exact noEnd_append_tok hinv _ _ (makeTwoCharOperator_tokens st)
        (makeTwoCharOperator_frame st).2.2.2.2
    · rw [if_neg he]
      exact lexInv_append_tok hinv _ _ (makeTwoCharOperator_tokens st)
        (makeTwoCharOperator_stack st)
        (makeTwoCharOperator_frame st).2.2.1 (makeTwoCharOperator_frame st).2.2.2.1
        (makeTwoCharOperator_frame st).2.2.2.2
  rw [if_neg h5]
  by_cases h6 : currentChar st = '+'
  · rw [if_pos h6]
    exact lexInv_append_tok hinv _ _ (advance_tokens st) (advance_stack st)
      (by simp) (by simp) (by simp)
  rw [if_neg h6]
  by_cases h7 : currentChar st = '-'
  · rw [if_pos h7]
    exact lexInv_append_tok hinv _ _ (advance_tokens st) (advance_stack st)
      (by simp) (by simp) (by simp)
  rw [if_neg h7]
  by_cases h8 : currentChar st = '*'
  · rw [if_pos h8]
    exact lexInv_append_tok hinv _ _ (advance_tokens st) (advance_stack st)
      (by simp) (by simp) (by simp)
  rw [if_neg h8]
  by_cases h9 : currentChar st = '('
  · rw [if_pos h9]
    exact lexInv_append_tok hinv _ _ (advance_tokens st) (advance_stack st)
      (by simp) (by simp) (by simp)
  rw [if_neg h9]
  by_cases h10 : currentChar st = ')'
  · rw [if_pos h10]
    exact lexInv_append_tok hinv _ _ (advance_tokens st) (advance_stack st)
      (by simp) (by simp) (by simp)
  rw [if_neg h10]
  by_cases h11 : currentChar st = '['
  · rw [if_pos h11]
    exact lexInv_append_tok hinv _ _ (advance_tokens st) (advance_stack st)
      (by simp) (by simp) (by simp)
  rw [if_neg h11]
  by_cases h12 : currentChar st = ']'
  · rw [if_pos h12]
    exact lexInv_append_tok hinv _ _ (advance_tokens st) (advance_stack st)
      (by simp) (by simp) (by simp)
  rw [if_neg h12]
  by_cases h13 : currentChar st = ':'
  · rw [if_pos h13]
    exact lexInv_append_tok hinv _ _ (advance_tokens st) (advance_stack st)
      (by simp) (by simp) (by simp)
  rw [if_neg h13]
  by_cases h14 : currentChar st = '.'
  · rw [if_pos h14]
    exact lexInv_append_tok hinv _ _ (advance_tokens st) (advance_stack st)
      (by simp) (by simp) (by simp)
  rw [if_neg h14]
  by_cases h15 : currentChar st = ','
  · rw [if_pos h15]
    exact lexInv_append_tok hinv _ _ (advance_tokens st) (advance_stack st)
      (by simp) (by simp) (by simp)
  rw [if_neg h15]
  exact noEnd_append_tok hinv _ _ (advance_tokens st) (by simp)

theorem lexIter_inv (st : LexState) (hinv : LexInv st) : IterInv (lexIter st) := by
  rw [lexIter.eq_def]
  dsimp only
  split
  · rcases handleIndentation_inv st hinv with hI | ⟨herr, hnoend⟩
    · split
      · exact hI.2.1
      · exact lexBody_inv _ hI
    · split
      · exact hnoend
      · rename_i hfalse
        exact absurd herr hfalse
  · exact lexBody_inv _ hinv

theorem finishTokens_balance (st : LexState) (hinv : LexInv st) :
    countType (finishTokens st) .INDENT = countType (finishTokens st) .DEDENT := by
  obtain ⟨⟨pre, hstack, hpre⟩, hnoend, hcount⟩ := hinv
  have hz := popDedents_zero pre st.line st.col hpre
  rw [finishTokens, addDedentTokens]
  dsimp only
  rw [hstack]
  simp only [countType_append, (countType_dedents hz.2.1).1, (countType_dedents hz.2.1).2]
  have hlen := hz.2.2
  rw [hstack] at hcount
  have h1 : countType [(⟨.ENDMARKER, "EOF", st.line, st.col⟩ : Token)] .INDENT = 0 := by
    simp [countType]
  have h2 : countType [(⟨.ENDMARKER, "EOF", st.line, st.col⟩ : Token)] .DEDENT = 0 := by
    simp [countType]
  rw [h1, h2]
  simp only [List.length_append, List.length_singleton] at hcount hlen
  omega

theorem tokenizeLoop_balance :
    ∀ (fuel : Nat) (st : LexState), LexInv st →
      ((tokenizeLoop fuel st).getLast?).map Token.type = some .ENDMARKER →
      countType (tokenizeLoop fuel st) .INDENT = countType (tokenizeLoop fuel st) .DEDENT := by
  intro fuel
  induction fuel with
  | zero =>
    intro st hinv hlast
    exfalso
    simp only [tokenizeLoop] at hlast
    cases hl : st.tokens.getLast? with
    | none => rw [hl] at hlast; simp at hlast
    | some t =>
      rw [hl] at hlast
      simp at hlast
      exact hinv.2.1 t (lastMem _ _ hl) hlast
  | succ f ih =>
    intro st hinv hlast
    rw [tokenizeLoop] at hlast ⊢
    by_cases h0 : currentChar st = '\x00'
    · rw [if_pos h0] at hlast ⊢
      exact finishTokens_balance st hinv
    · rw [if_neg h0] at hlast ⊢
      have hit := lexIter_inv st hinv
      cases hres : lexIter st with
      | done ts =>
        rw [hres] at hlast
        dsimp only at hlast ⊢
        have hne : NoEnd ts := by rw [hres] at hit; exact hit
        exfalso
        cases hl : ts.getLast? with
        | none => rw [hl] at hlast; simp at hlast
        | some t =>
          rw [hl] at hlast
          simp at hlast
          exact hne t (lastMem _ _ hl) hlast
      | finish st' =>
        rw [hres] at hlast
        dsimp only at hlast ⊢
        have hI : LexInv st' := by rw [hres] at hit; exact hit
        exact finishTokens_balance st' hI
      | next st' =>
        rw [hres] at hlast
        dsimp only at hlast ⊢
        have hI : LexInv st' := by rw [hres] at hit; exact hit
        exact ih st' hI hlast

/-- C9: whenever tokenization completes (the token list ends with ENDMARKER
rather than stopping at an ERROR token), the number of INDENT tokens emitted
equals the number of DEDENT tokens emitted, counting the synthetic DEDENTs
flushed at end of input. -/
theorem c9_indent_dedent_balance :
    ∀ (src : String),
      ((tokenize src).getLast?).map Token.type = some .ENDMARKER →
      countType (tokenize src) .INDENT = countType (tokenize src) .DEDENT := by
  intro src hlast
  have hinv : LexInv (initLexState src) := by
    refine ⟨⟨[], rfl, by simp⟩, ?_, ?_⟩
    · intro t ht; simp [initLexState] at ht
    · simp [initLexState, countType]
  exact tokenizeLoop_balance _ _ hinv hlast

/-- C9 witness: a program with one indented block; its token stream ends
with ENDMARKER and carries one INDENT and one DEDENT. -/
theorem c9_indent_dedent_balance_witness :
    ((tokenize "if True:\n\tprint(1)\n").getLast?).map Token.type = some .ENDMARKER ∧
    countType (tokenize "if True:\n\tprint(1)\n") .INDENT = 1 ∧
    countType (tokenize "if True:\n\tprint(1)\n") .INDENT =
      countType (tokenize "if True:\n\tprint(1)\n") .DEDENT :=
  ⟨rfl, rfl, c9_indent_dedent_balance "if True:\n\tprint(1)\n" rfl⟩
